import Mathlib

/-!
# Voyager: world generation (`vgr_world`) and its one-line description (`string_from`)

A shallow embedding of `src/libstarjumper/starjumper/vgr_world.c` and
`src/libstarjumper/starjumper/sj_string.c`.

* C `int` values are `Int`; every total computed here stays far inside the
  32-bit range for dice in `[1, 6]`.
* A C string is a `String` whose characters stand for bytes; `strlen` is
  `String.length`.
* Reading an array outside its bounds, reading storage that was never written
  and a failed `assert` have no defined result in C.  They are made explicit as
  a `Fault` carried by `Except`.
-/

namespace Voyager

/-! ## Faults -/

/-- The arrays of `vgr_world.c` that are indexed by a dice total or an attribute. -/
inductive Table where
  | gas_giant_table
  | naval_base_table
  | scout_base_table
  | tech_level_atmosphere_table
  | tech_level_government_table
  | tech_level_hydrographics_table
  | tech_level_population_table
  | tech_level_size_table
  | starport_table
  deriving DecidableEq, Repr

/-- Ways in which the C code leaves defined behaviour or stops. -/
inductive Fault where
  /-- An array was read at an index outside its bounds. -/
  | index_out_of_range (table : Table) (index : Int)
  /-- An `assert` of `hex_digit` failed. -/
  | assertion_failed (value : Int)
  /-- A buffer was read as a string although nothing was ever written to it. -/
  | indeterminate_read
  deriving DecidableEq, Repr

/-! ## Collaborators declared in headers outside the translated sources -/

/-- Modelled from the spec: the pseudorandom stream (`sf_random_t`), "an
immutable-value stream: consuming a die roll yields a result and a new stream
value".  The stream is the sequence of die draws it will yield; entry `0` is
the next draw. -/
abbrev sf_random_t := Nat → Int

/-- Modelled from the spec: `next(stream) → (value, stream')`. -/
def sf_random_next (random : sf_random_t) : Int × sf_random_t :=
  (random 0, fun n => random (n + 1))

/-- Every die draw of the stream lies in `[1, sides]`. -/
def draws_in_range (sides : Int) (random : sf_random_t) : Prop :=
  ∀ n, 1 ≤ random n ∧ random n ≤ sides

/-- Modelled from the spec: the DiceThrowResult (`vgr_dice_throw_t`), "the
number of dice, sides, the natural total (pre-modifier) and the final total
(natural + modifier-chain sum)". -/
structure vgr_dice_throw_t where
  count : Nat
  sides : Nat
  natural : Int
  total : Int
  deriving DecidableEq, Repr

/-- Modelled from the spec: the draws of one throw, "consuming [the stream]
`count` times in a fixed left-to-right order"; returns their sum and the stream
that is left. -/
def roll_dice : Nat → sf_random_t → Int × sf_random_t
  | 0, random => (0, random)
  | count + 1, random =>
    let next := sf_random_next random
    let rest := roll_dice count next.2
    (next.1 + rest.1, rest.2)

/-- Modelled from the spec: `vgr_die_modifier` and the `sf_list` of them, the
ModifierChain, an "ordered sequence of signed integers; semantic effect is
their sum".  `sf_list(m, rest)` is `m :: rest`, `sf_list_from_items(a, b)` is
`[a, b]` and `NULL` is `[]`. -/
abbrev modifier_chain := List Int

/-- Modelled from the spec: the Dice-Throw Engine `vgr_dice_throw`,
`throw(count, sides, modifiers, stream) → (total, stream')` with
`total = sum(draws) + sum(modifiers)` and no clamping. -/
def vgr_dice_throw (count sides : Nat) (modifiers : modifier_chain)
    (random_in : sf_random_t) : vgr_dice_throw_t × sf_random_t :=
  let rolled := roll_dice count random_in
  ({ count := count, sides := sides, natural := rolled.1,
     total := rolled.1 + modifiers.sum }, rolled.2)

/-- Modelled from the spec: `vgr_dice_throw_total`, the final total of a throw. -/
def vgr_dice_throw_total (dice_throw : vgr_dice_throw_t) : Int :=
  dice_throw.total

/-- The `struct vgr_hex_coordinate` (declared in `vgr_hex_coordinate.h`). -/
structure vgr_hex_coordinate where
  horizontal : Int
  vertical : Int
  deriving DecidableEq, Repr

/-- The `struct vgr_trade_classification` (declared in
`vgr_trade_classification.h`): the three strings `string_from` reads. -/
structure vgr_trade_classification where
  name : String
  short_name : String
  abbreviation : String
  deriving DecidableEq, Repr

/-! ## `struct _vgr_world` -/

/-- The `struct _vgr_world`; `trade_classifications_count` is the length of
`trade_classifications`. -/
structure vgr_world_t where
  name : String
  hex_coordinate : vgr_hex_coordinate
  starport : Char
  naval_base : Bool
  scout_base : Bool
  gas_giant : Bool
  size : Int
  atmosphere : Int
  hydrographics : Int
  population : Int
  government : Int
  law_level : Int
  tech_level : Int
  trade_classifications : List vgr_trade_classification
  deriving DecidableEq, Repr

/-! ## The tables -/

def gas_giant_table : List Bool :=
  [false, false, true, true, true, true, true, true, true, true, false, false, false]

def naval_base_table : List Bool :=
  [false, false, false, false, false, false, false, false, true, true, true, true, true]

def scout_base_table : List Bool :=
  [false, false, false, false, false, false, false, true, true, true, true, true, true]

def tech_level_atmosphere_table : List Int :=
  [1, 1, 1, 1, 0, 0, 0, 0, 0, 0, 1, 1, 1, 1, 1]

def tech_level_government_table : List Int :=
  [1, 0, 0, 0, 0, 1, 0, 0, 0, 0, 0, 0, 0, -2, 0, 0]

def tech_level_hydrographics_table : List Int :=
  [0, 0, 0, 0, 0, 0, 0, 0, 0, 1, 2]

def tech_level_population_table : List Int :=
  [0, 1, 1, 1, 1, 1, 0, 0, 0, 2, 4]

def tech_level_size_table : List Int :=
  [2, 2, 1, 1, 1, 0, 0, 0, 0, 0, 0]

/-- The string literal `"??AAABBCCDEEX"`: thirteen characters, followed in
storage by the terminating NUL. -/
def starport_table : List Char :=
  ['?', '?', 'A', 'A', 'A', 'B', 'B', 'C', 'C', 'D', 'E', 'E', 'X', Char.ofNat 0]

/-- The C expression `table[index]`: defined only for an index within the
array. -/
def table_at {α : Type} (which : Table) (table : List α) (index : Int) : Except Fault α :=
  if index < 0 then
    .error (.index_out_of_range which index)
  else
    match table.get? index.toNat with
    | some value => .ok value
    | none => .error (.index_out_of_range which index)

/-! ## `vgr_world` -/

/-- The object returned by `sf_object_calloc` (the allocation is taken to
succeed), with the two assignments of lines 327-328: every other field is
zero. -/
def sf_object_calloc (name : String) (hex_coordinate : vgr_hex_coordinate) : vgr_world_t :=
  { name := name, hex_coordinate := hex_coordinate, starport := Char.ofNat 0,
    naval_base := false, scout_base := false, gas_giant := false,
    size := 0, atmosphere := 0, hydrographics := 0, population := 0,
    government := 0, law_level := 0, tech_level := 0, trade_classifications := [] }

/-- Lines 334-336: the starport throw. -/
def throw_starport (world : vgr_world_t) (random : sf_random_t) :
    Except Fault (vgr_world_t × sf_random_t) := do
  let thrown := vgr_dice_throw 2 6 [] random
  let starport_index := vgr_dice_throw_total thrown.1
  let starport ← table_at .starport_table starport_table starport_index
  pure ({ world with starport := starport }, thrown.2)

/-- Lines 338-342: the naval base throw. -/
def throw_naval_base (world : vgr_world_t) (random : sf_random_t) :
    Except Fault (vgr_world_t × sf_random_t) :=
  if 'A' = world.starport ∨ 'B' = world.starport then do
    let thrown := vgr_dice_throw 2 6 [] random
    let naval_base_index := vgr_dice_throw_total thrown.1
    let naval_base ← table_at .naval_base_table naval_base_table naval_base_index
    pure ({ world with naval_base := naval_base }, thrown.2)
  else
    pure (world, random)

/-- Lines 345-352: the modifiers of the scout base throw. -/
def scout_base_modifiers (starport : Char) : modifier_chain :=
  if 'C' = starport then [-1]
  else if 'B' = starport then [-2]
  else if 'A' = starport then [-3]
  else []

/-- Lines 344-356: the scout base throw. -/
def throw_scout_base (world : vgr_world_t) (random : sf_random_t) :
    Except Fault (vgr_world_t × sf_random_t) :=
  if 'E' ≠ world.starport ∧ 'X' ≠ world.starport then do
    let modifiers := scout_base_modifiers world.starport
    let thrown := vgr_dice_throw 2 6 modifiers random
    let scout_base_index := vgr_dice_throw_total thrown.1
    let scout_base ← table_at .scout_base_table scout_base_table scout_base_index
    pure ({ world with scout_base := scout_base }, thrown.2)
  else
    pure (world, random)

/-- Lines 358-360: the gas giant throw. -/
def throw_gas_giant (world : vgr_world_t) (random : sf_random_t) :
    Except Fault (vgr_world_t × sf_random_t) := do
  let thrown := vgr_dice_throw 2 6 [] random
  let gas_giant_index := vgr_dice_throw_total thrown.1
  let gas_giant ← table_at .gas_giant_table gas_giant_table gas_giant_index
  pure ({ world with gas_giant := gas_giant }, thrown.2)

/-- Lines 362-364: the size throw. -/
def throw_size (world : vgr_world_t) (random : sf_random_t) : vgr_world_t × sf_random_t :=
  let modifiers : modifier_chain := [-2]
  let thrown := vgr_dice_throw 2 6 modifiers random
  ({ world with size := vgr_dice_throw_total thrown.1 }, thrown.2)

/-- Lines 366-373: the atmosphere throw. -/
def throw_atmosphere (world : vgr_world_t) (random : sf_random_t) :
    vgr_world_t × sf_random_t :=
  if 0 = world.size then
    ({ world with atmosphere := 0 }, random)
  else
    let modifiers : modifier_chain := [-7, world.size]
    let thrown := vgr_dice_throw 2 6 modifiers random
    let atmosphere := vgr_dice_throw_total thrown.1
    let atmosphere := if atmosphere < 0 then 0 else atmosphere
    ({ world with atmosphere := atmosphere }, thrown.2)

/-- Lines 375-386: the hydrographics throw. -/
def throw_hydrographics (world : vgr_world_t) (random : sf_random_t) :
    vgr_world_t × sf_random_t :=
  if 0 = world.size then
    ({ world with hydrographics := 0 }, random)
  else
    let modifiers : modifier_chain := [-7, world.atmosphere]
    let modifiers : modifier_chain :=
      if 0 = world.atmosphere ∨ 1 = world.atmosphere ∨ world.atmosphere ≥ 10 then
        -4 :: modifiers
      else modifiers
    let thrown := vgr_dice_throw 2 6 modifiers random
    let hydrographics := vgr_dice_throw_total thrown.1
    let hydrographics := if hydrographics < 0 then 0 else hydrographics
    let hydrographics := if hydrographics > 10 then 10 else hydrographics
    ({ world with hydrographics := hydrographics }, thrown.2)

/-- Lines 388-390: the population throw. -/
def throw_population (world : vgr_world_t) (random : sf_random_t) :
    vgr_world_t × sf_random_t :=
  let modifiers : modifier_chain := [-2]
  let thrown := vgr_dice_throw 2 6 modifiers random
  ({ world with population := vgr_dice_throw_total thrown.1 }, thrown.2)

/-- Lines 392-399: the government throw. -/
def throw_government (world : vgr_world_t) (random : sf_random_t) :
    vgr_world_t × sf_random_t :=
  if 0 = world.population then
    ({ world with government := 0 }, random)
  else
    let modifiers : modifier_chain := [-7, world.population]
    let thrown := vgr_dice_throw 2 6 modifiers random
    let government := vgr_dice_throw_total thrown.1
    let government := if government < 0 then 0 else government
    ({ world with government := government }, thrown.2)

/-- Lines 401-408: the law level throw. -/
def throw_law_level (world : vgr_world_t) (random : sf_random_t) :
    vgr_world_t × sf_random_t :=
  if 0 = world.population then
    ({ world with law_level := 0 }, random)
  else
    let modifiers : modifier_chain := [-7, world.government]
    let thrown := vgr_dice_throw 2 6 modifiers random
    let law_level := vgr_dice_throw_total thrown.1
    let law_level := if law_level < 0 then 0 else law_level
    ({ world with law_level := law_level }, thrown.2)

/-- Lines 413-423: the starport modifier of the tech level throw. -/
def tech_level_starport_modifiers (starport : Char) : modifier_chain :=
  if 'A' = starport then [6]
  else if 'B' = starport then [4]
  else if 'C' = starport then [2]
  else if 'X' = starport then [-4]
  else []

/-- Lines 413-429: the modifier chain of the tech level throw.  The five table
reads happen in source order. -/
def tech_level_modifiers (world : vgr_world_t) : Except Fault modifier_chain := do
  let modifiers := tech_level_starport_modifiers world.starport
  let m ← table_at .tech_level_size_table tech_level_size_table world.size
  let modifiers := m :: modifiers
  let m ← table_at .tech_level_atmosphere_table tech_level_atmosphere_table world.atmosphere
  let modifiers := m :: modifiers
  let m ← table_at .tech_level_hydrographics_table tech_level_hydrographics_table
    world.hydrographics
  let modifiers := m :: modifiers
  let m ← table_at .tech_level_population_table tech_level_population_table world.population
  let modifiers := m :: modifiers
  let m ← table_at .tech_level_government_table tech_level_government_table world.government
  let modifiers := m :: modifiers
  pure modifiers

/-- Lines 412-434: the tech level throw. -/
def throw_tech_level (world : vgr_world_t) (random : sf_random_t) :
    Except Fault (vgr_world_t × sf_random_t) :=
  if world.population ≠ 0 then do
    let modifiers ← tech_level_modifiers world
    let thrown := vgr_dice_throw 1 6 modifiers random
    let tech_level := vgr_dice_throw_total thrown.1
    let tech_level := if tech_level < 0 then 0 else tech_level
    pure ({ world with tech_level := tech_level }, thrown.2)
  else
    pure (world, random)

/-- Lines 324-336 of `vgr_world`: allocation and the starport throw. -/
def vgr_world_to_starport (name : String) (hex_coordinate : vgr_hex_coordinate)
    (random_in : sf_random_t) : Except Fault (vgr_world_t × sf_random_t) :=
  throw_starport (sf_object_calloc name hex_coordinate) random_in

/-- Lines 324-364 of `vgr_world`: everything up to and including the size
throw. -/
def vgr_world_to_size (name : String) (hex_coordinate : vgr_hex_coordinate)
    (random_in : sf_random_t) : Except Fault (vgr_world_t × sf_random_t) := do
  let st ← vgr_world_to_starport name hex_coordinate random_in
  let st ← throw_naval_base st.1 st.2
  let st ← throw_scout_base st.1 st.2
  let st ← throw_gas_giant st.1 st.2
  pure (throw_size st.1 st.2)

/-- Lines 324-390 of `vgr_world`: everything up to and including the population
throw. -/
def vgr_world_to_population (name : String) (hex_coordinate : vgr_hex_coordinate)
    (random_in : sf_random_t) : Except Fault (vgr_world_t × sf_random_t) := do
  let st ← vgr_world_to_size name hex_coordinate random_in
  let st := throw_atmosphere st.1 st.2
  let st := throw_hydrographics st.1 st.2
  pure (throw_population st.1 st.2)

/-- The function `vgr_world` (lines 316-440).  The trade classification engine
`vgr_world_alloc_trade_classifications` is defined elsewhere and is a
parameter; the result pairs the world with the stream stored in
`*random_out`. -/
def vgr_world (vgr_world_alloc_trade_classifications : vgr_world_t → List vgr_trade_classification)
    (name : String) (hex_coordinate : vgr_hex_coordinate) (random_in : sf_random_t) :
    Except Fault (vgr_world_t × sf_random_t) := do
  let st ← vgr_world_to_population name hex_coordinate random_in
  let st := throw_government st.1 st.2
  let st := throw_law_level st.1 st.2
  let st ← throw_tech_level st.1 st.2
  let world := st.1
  let world :=
    { world with trade_classifications := vgr_world_alloc_trade_classifications world }
  pure (world, st.2)

/-! ## `sj_string_alloc_join_strings_with_suffix` -/

/-- The first loop of `sj_string_alloc_join_strings_with_suffix` (lines 23-28):
the number of bytes asked of `sj_malloc`. -/
def joined_size (strings : List String) (suffix : String) : Nat :=
  let suffix_size := suffix.length
  strings.foldl (fun size s => size + s.length + suffix_size) 1

/-- The C library call `end = stpcpy(end, src)` on the buffer `joined`.  The
text between `joined` and `end` is `some text` once something has been copied
and `none` while the storage is still as `sj_malloc` returned it; the copy
lands right behind that text and ends it with a NUL. -/
def stpcpy (joined : Option String) (src : String) : Option String :=
  some (joined.getD "" ++ src)

/-- The function `sj_string_alloc_join_strings_with_suffix` (lines 18-36); the
array `strings` with its `count` is a list.  The result is the string found at
`joined`, `none` when no byte of the buffer was written. -/
def sj_string_alloc_join_strings_with_suffix (strings : List String) (suffix : String) :
    Option String :=
  strings.foldl (fun joined s => stpcpy (stpcpy joined s) suffix) none

/-- Reading a buffer as a C string (`strlen`, `%s`). -/
def c_string (buffer : Option String) : Except Fault String :=
  match buffer with
  | some text => .ok text
  | none => .error .indeterminate_read

/-! ## `string_from` and its helpers -/

/-- The function `base_code` (lines 221-231). -/
def base_code (world : vgr_world_t) : Char :=
  if world.naval_base then
    if world.scout_base then 'A' else 'N'
  else if world.scout_base then
    'S'
  else
    ' '

/-- Lines 308-312 of `hex_digit`: the character arithmetic. -/
def hex_digit_char (value : Int) : Char :=
  if value < 10 then
    Char.ofNat ('0'.toNat + value).toNat
  else
    Char.ofNat ('A'.toNat + value - 10).toNat

/-- The function `hex_digit` (lines 302-313), with its two assertions. -/
def hex_digit (value : Int) : Except Fault Char :=
  if ¬ value ≥ 0 then .error (.assertion_failed value)
  else if ¬ value ≤ 34 then .error (.assertion_failed value)
  else .ok (hex_digit_char value)

/-- The conversion `%*s` of the C library with a negative width argument: the
text, then blanks up to the width; a longer text is printed whole. -/
def left_justify (width : Nat) (text : String) : String :=
  text ++ String.mk (List.replicate (width - text.length) ' ')

/-- The conversion `%4s` of the C library: blanks up to the width, then the
text; a longer text is printed whole. -/
def right_justify (width : Nat) (text : String) : String :=
  String.mk (List.replicate (width - text.length) ' ') ++ text

/-- The call of `sf_string_from_format` of lines 285-294, with the format
`"%*s %4s %c%c%c%c%c%c%c-%c %c %*s%c"` read as by the C library. -/
def sf_string_from_format (max_name_length : Nat) (name hex_coordinate : String)
    (starport size atmosphere hydrographics population government law_level tech_level
      base : Char)
    (max_classifications_length : Nat) (classifications : String) (gas_giant : Char) :
    String :=
  left_justify max_name_length name ++ " " ++ right_justify 4 hex_coordinate ++ " "
    ++ String.mk [starport, size, atmosphere, hydrographics, population, government, law_level]
    ++ "-" ++ String.mk [tech_level] ++ " " ++ String.mk [base] ++ " "
    ++ left_justify max_classifications_length classifications ++ String.mk [gas_giant]

/-- The call `vgr_strarray_alloc_collect_strings(items, count, size, fn)`: the
strings `fn` gives for the items, in order. -/
def vgr_strarray_alloc_collect_strings (items : List vgr_trade_classification)
    (fn : vgr_trade_classification → String) : List String :=
  items.map fn

/-- The function `string_from` (lines 244-299).  The hex coordinate formatter
`vgr_string_alloc_from_hex_coordinate` is defined elsewhere and is a
parameter. -/
def string_from (vgr_string_alloc_from_hex_coordinate : vgr_hex_coordinate → String)
    (world : vgr_world_t) : Except Fault String := do
  let hex_coordinate := vgr_string_alloc_from_hex_coordinate world.hex_coordinate
  let max_name_length : Nat := 18
  let max_classifications_length : Nat := 42
  let separator := ". "
  let classification_names :=
    vgr_strarray_alloc_collect_strings world.trade_classifications (·.name)
  let classifications ←
    c_string (sj_string_alloc_join_strings_with_suffix classification_names separator)
  let classifications ←
    if classifications.length > max_classifications_length then do
      let classification_short_names :=
        vgr_strarray_alloc_collect_strings world.trade_classifications (·.short_name)
      let classifications ←
        c_string (sj_string_alloc_join_strings_with_suffix classification_short_names separator)
      if classifications.length > max_classifications_length then
        let classification_abbreviations :=
          vgr_strarray_alloc_collect_strings world.trade_classifications (·.abbreviation)
        c_string (sj_string_alloc_join_strings_with_suffix classification_abbreviations separator)
      else
        pure classifications
    else
      pure classifications
  let size ← hex_digit world.size
  let atmosphere ← hex_digit world.atmosphere
  let hydrographics ← hex_digit world.hydrographics
  let population ← hex_digit world.population
  let government ← hex_digit world.government
  let law_level ← hex_digit world.law_level
  let tech_level ← hex_digit world.tech_level
  pure (sf_string_from_format max_name_length world.name hex_coordinate
    world.starport size atmosphere hydrographics population government law_level tech_level
    (base_code world) max_classifications_length classifications
    (if world.gas_giant then 'G' else ' '))

/-! ## Predicates used in the statements -/

/-- The ranges of the numeric attributes that hold for every world `vgr_world`
builds from dice in `[1, 6]`. -/
structure attributes_bounded (world : vgr_world_t) : Prop where
  size : 0 ≤ world.size ∧ world.size ≤ 10
  atmosphere : 0 ≤ world.atmosphere ∧ world.atmosphere ≤ 15
  hydrographics : 0 ≤ world.hydrographics ∧ world.hydrographics ≤ 10
  population : 0 ≤ world.population ∧ world.population ≤ 10
  government : 0 ≤ world.government ∧ world.government ≤ 15
  law_level : 0 ≤ world.law_level ∧ world.law_level ≤ 20
  tech_level : 0 ≤ world.tech_level ∧ world.tech_level ≤ 22

/-- A stream given by its first draws, continued by one repeated draw. -/
def stream_of (draws : List Int) (then_always : Int) : sf_random_t :=
  fun n => draws.getD n then_always

/-- The two assertions of `hex_digit`, for each of the seven attributes that
`string_from` passes to it. -/
structure hex_digits_in_range (world : vgr_world_t) : Prop where
  size : 0 ≤ world.size ∧ world.size ≤ 34
  atmosphere : 0 ≤ world.atmosphere ∧ world.atmosphere ≤ 34
  hydrographics : 0 ≤ world.hydrographics ∧ world.hydrographics ≤ 34
  population : 0 ≤ world.population ∧ world.population ≤ 34
  government : 0 ≤ world.government ∧ world.government ≤ 34
  law_level : 0 ≤ world.law_level ∧ world.law_level ≤ 34
  tech_level : 0 ≤ world.tech_level ∧ world.tech_level ≤ 34

/-- The spec's join (4.3, step 2): the labels "each suffixed by a separator
string", one after the other. -/
def spec_join_with_suffix (suffix : String) : List String → String
  | [] => ""
  | label :: rest => label ++ suffix ++ spec_join_with_suffix suffix rest

/-- The join of the full classification names of a world. -/
def full_name_join (world : vgr_world_t) : String :=
  spec_join_with_suffix ". " (world.trade_classifications.map (·.name))

/-- The join of the short classification names of a world. -/
def short_name_join (world : vgr_world_t) : String :=
  spec_join_with_suffix ". " (world.trade_classifications.map (·.short_name))

/-- The join of the classification abbreviations of a world. -/
def abbreviation_join (world : vgr_world_t) : String :=
  spec_join_with_suffix ". " (world.trade_classifications.map (·.abbreviation))

/-- The spec's fallback ladder (4.3, steps 2-4): the full names if their join
fits the budget of 42 characters, otherwise the short names if their join fits,
otherwise the abbreviations. -/
def spec_classification_ladder (world : vgr_world_t) : String :=
  if (full_name_join world).length ≤ 42 then full_name_join world
  else if (short_name_join world).length ≤ 42 then short_name_join world
  else abbreviation_join world

/-- Everything the format of `string_from` prints before the classification
field: name, hex code, starport, the attribute digits and the base code. -/
def line_before_classifications
    (vgr_string_alloc_from_hex_coordinate : vgr_hex_coordinate → String)
    (world : vgr_world_t) : String :=
  left_justify 18 world.name ++ " "
    ++ right_justify 4 (vgr_string_alloc_from_hex_coordinate world.hex_coordinate) ++ " "
    ++ String.mk [world.starport, hex_digit_char world.size, hex_digit_char world.atmosphere,
        hex_digit_char world.hydrographics, hex_digit_char world.population,
        hex_digit_char world.government, hex_digit_char world.law_level]
    ++ "-" ++ String.mk [hex_digit_char world.tech_level] ++ " "
    ++ String.mk [base_code world] ++ " "

/-- The gas giant marker that ends the line. -/
def gas_giant_marker (world : vgr_world_t) : String :=
  String.mk [if world.gas_giant then 'G' else ' ']

/-- A classification whose three renderings are those of "Agricultural". -/
def agricultural : vgr_trade_classification :=
  { name := "Agricultural", short_name := "Agri", abbreviation := "Ag" }

/-- A world with the given list of classifications. -/
def world_with (trade_classifications : List vgr_trade_classification) : vgr_world_t :=
  { sf_object_calloc "Regina" ⟨1, 10⟩ with
      starport := 'A', size := 7, atmosphere := 8, hydrographics := 8, population := 8,
      government := 9, law_level := 9, tech_level := 12, naval_base := true,
      gas_giant := true, trade_classifications := trade_classifications }

/-! ## Definitions written from the claims' words -/

/-- The digits of the spec's "radix-35 compact digit": the characters for the
values 0, 1, ..., 34 in order. -/
def spec_hex_digits : List Char :=
  ['0', '1', '2', '3', '4', '5', '6', '7', '8', '9', 'A', 'B', 'C', 'D', 'E', 'F', 'G', 'H',
   'I', 'J', 'K', 'L', 'M', 'N', 'O', 'P', 'Q', 'R', 'S', 'T', 'U', 'V', 'W', 'X', 'Y']

/-- The spec's base code: 'A' if both naval and scout bases are present, 'N' if
only naval, 'S' if only scout, space if neither. -/
def spec_base_code (naval_base scout_base : Bool) : Char :=
  match naval_base, scout_base with
  | true, true => 'A'
  | true, false => 'N'
  | false, true => 'S'
  | false, false => ' '

/-- The spec's starport bonus of the tech level: `{A:+6, B:+4, C:+2, X:−4,
else 0}`. -/
def spec_starport_bonus (starport : Char) : Int :=
  if starport = 'A' then 6
  else if starport = 'B' then 4
  else if starport = 'C' then 2
  else if starport = 'X' then -4
  else 0

/-- The spec's scout base modifier: `{C:−1, B:−2, A:−3, else 0}`. -/
def spec_scout_base_modifier (starport : Char) : Int :=
  if starport = 'C' then -1
  else if starport = 'B' then -2
  else if starport = 'A' then -3
  else 0

/-- The spec's "clamp to [0,10]" and "clamp negative to 0": the value brought
into `[low, high]`. -/
def spec_clamp (low high value : Int) : Int :=
  if value < low then low else if high < value then high else value

/-- The natural total of a throw of two dice made from a stream. -/
def natural_two_dice (random : sf_random_t) : Int :=
  (vgr_dice_throw 2 6 [] random).1.natural

/-- The natural total of a throw of one die made from a stream. -/
def natural_one_die (random : sf_random_t) : Int :=
  (vgr_dice_throw 1 6 [] random).1.natural

/-- The number of die draws named by C20 for a world:
`8 + 2*[starport is 'A' or 'B'] + 2*[starport is not 'E' or 'X']
 + 4*[size is non-zero] + 5*[population is non-zero]`. -/
def draws_consumed (world : vgr_world_t) : Nat :=
  8 + 2 * (if world.starport = 'A' ∨ world.starport = 'B' then 1 else 0)
    + 2 * (if world.starport ≠ 'E' ∧ world.starport ≠ 'X' then 1 else 0)
    + 4 * (if world.size ≠ 0 then 1 else 0)
    + 5 * (if world.population ≠ 0 then 1 else 0)

/-- Two streams have the same first `count` draws. -/
def same_draws (count : Nat) (random other : sf_random_t) : Prop :=
  ∀ i, i < count → other i = random i

/-- A computation on a stream uses exactly the first `count` draws of `random`
to produce `world`: on every stream with the same first `count` draws it
returns `world` together with that stream without its first `count` draws. -/
def consumes (f : sf_random_t → Except Fault (vgr_world_t × sf_random_t))
    (random : sf_random_t) (count : Nat) (world : vgr_world_t) : Prop :=
  ∀ other, same_draws count random other → f other = .ok (world, fun n => other (n + count))

/-- The line as C18 words it: the name padded to 18, the hex code, a space, the
starport letter, the six attribute digits, a hyphen, the tech level digit, the
base code, the classification text padded to 42 and the gas giant marker, with
nothing else between them. -/
def spec_line (name hex_code : String) (starport : Char) (digits : List Char)
    (tech_level base : Char) (classifications : String) (gas_giant : Bool) : String :=
  left_justify 18 name ++ hex_code ++ " " ++ String.mk [starport] ++ String.mk digits
    ++ "-" ++ String.mk [tech_level] ++ String.mk [base]
    ++ left_justify 42 classifications ++ String.mk [if gas_giant then 'G' else ' ']

/-- The line as the format string of `string_from` composes it: as `spec_line`,
with a blank after the name, after the tech level digit and after the base
code. -/
def format_line (name hex_code : String) (starport : Char) (digits : List Char)
    (tech_level base : Char) (classifications : String) (gas_giant : Bool) : String :=
  left_justify 18 name ++ " " ++ hex_code ++ " " ++ String.mk [starport] ++ String.mk digits
    ++ "-" ++ String.mk [tech_level] ++ " " ++ String.mk [base] ++ " "
    ++ left_justify 42 classifications ++ String.mk [if gas_giant then 'G' else ' ']

/-- The six attribute digits of a world, in the order of the line. -/
def attribute_digits (world : vgr_world_t) : List Char :=
  [hex_digit_char world.size, hex_digit_char world.atmosphere,
   hex_digit_char world.hydrographics, hex_digit_char world.population,
   hex_digit_char world.government, hex_digit_char world.law_level]

/-! ## General lemmas -/

theorem bind_eq_ok {α β : Type} (x : Except Fault α) (f : α → Except Fault β) (b : β) :
    (x >>= f) = .ok b ↔ ∃ a, x = .ok a ∧ f a = .ok b := by
  cases x with
  | error e => simp [bind, Except.bind]
  | ok a => simp [bind, Except.bind]

theorem pure_eq_ok {α : Type} (a b : α) : (pure a : Except Fault α) = .ok b ↔ a = b := by
  simp [pure, Except.pure]

@[simp] theorem vgr_dice_throw_two_total (sides : Nat) (modifiers : modifier_chain)
    (random : sf_random_t) :
    vgr_dice_throw_total (vgr_dice_throw 2 sides modifiers random).1 =
      random 0 + random 1 + modifiers.sum := by
  simp [vgr_dice_throw, vgr_dice_throw_total, roll_dice, sf_random_next, add_assoc]

@[simp] theorem vgr_dice_throw_two_random (sides : Nat) (modifiers : modifier_chain)
    (random : sf_random_t) :
    (vgr_dice_throw 2 sides modifiers random).2 = fun n => random (n + 2) := by
  simp [vgr_dice_throw, roll_dice, sf_random_next]

@[simp] theorem vgr_dice_throw_one_total (sides : Nat) (modifiers : modifier_chain)
    (random : sf_random_t) :
    vgr_dice_throw_total (vgr_dice_throw 1 sides modifiers random).1 =
      random 0 + modifiers.sum := by
  simp [vgr_dice_throw, vgr_dice_throw_total, roll_dice, sf_random_next]

@[simp] theorem vgr_dice_throw_one_random (sides : Nat) (modifiers : modifier_chain)
    (random : sf_random_t) :
    (vgr_dice_throw 1 sides modifiers random).2 = fun n => random (n + 1) := by
  simp [vgr_dice_throw, roll_dice, sf_random_next]

theorem draws_in_range_shift {sides : Int} {random : sf_random_t} (k : Nat)
    (h : draws_in_range sides random) : draws_in_range sides (fun n => random (n + k)) :=
  fun n => h (n + k)

theorem table_at_mem {α : Type} {which : Table} {table : List α} {index : Int} {value : α}
    (h : table_at which table index = .ok value) : value ∈ table := by
  unfold table_at at h
  split at h
  · cases h
  · split at h
    · rename_i hv
      cases h
      exact List.get?_mem hv
    · cases h

theorem table_at_error {α : Type} {which : Table} {table : List α} {index : Int} {fault : Fault}
    (h : table_at which table index = .error fault) :
    fault = .index_out_of_range which index ∧ (index < 0 ∨ (table.length : Int) ≤ index) := by
  unfold table_at at h
  split at h
  · rename_i hneg
    cases h
    exact ⟨rfl, Or.inl hneg⟩
  · split at h
    · cases h
    · rename_i hnone
      cases h
      refine ⟨rfl, Or.inr ?_⟩
      have := List.get?_eq_none.mp hnone
      omega

/-! ## What each stage of `vgr_world` does -/

theorem throw_starport_ok {world : vgr_world_t} {random : sf_random_t}
    {st : vgr_world_t × sf_random_t} (h : throw_starport world random = .ok st) :
    ∃ starport, table_at .starport_table starport_table (random 0 + random 1) = .ok starport ∧
      st = ({ world with starport := starport }, fun n => random (n + 2)) := by
  simp only [throw_starport, bind_eq_ok, pure_eq_ok, vgr_dice_throw_two_total,
    vgr_dice_throw_two_random, List.sum_nil, add_zero] at h
  obtain ⟨v, hv, rfl⟩ := h
  exact ⟨v, hv, rfl⟩

theorem throw_naval_base_ok {world : vgr_world_t} {random : sf_random_t}
    {st : vgr_world_t × sf_random_t} (h : throw_naval_base world random = .ok st) :
    (('A' = world.starport ∨ 'B' = world.starport) ∧
      ∃ naval_base,
        table_at .naval_base_table naval_base_table (random 0 + random 1) = .ok naval_base ∧
        st = ({ world with naval_base := naval_base }, fun n => random (n + 2))) ∨
    (¬ ('A' = world.starport ∨ 'B' = world.starport) ∧ st = (world, random)) := by
  unfold throw_naval_base at h
  split at h
  · rename_i hab
    simp only [bind_eq_ok, pure_eq_ok, vgr_dice_throw_two_total,
      vgr_dice_throw_two_random, List.sum_nil, add_zero] at h
    obtain ⟨v, hv, rfl⟩ := h
    exact Or.inl ⟨hab, v, hv, rfl⟩
  · rename_i hab
    simp only [pure_eq_ok] at h
    exact Or.inr ⟨hab, h.symm⟩

theorem throw_scout_base_ok {world : vgr_world_t} {random : sf_random_t}
    {st : vgr_world_t × sf_random_t} (h : throw_scout_base world random = .ok st) :
    (('E' ≠ world.starport ∧ 'X' ≠ world.starport) ∧
      ∃ scout_base,
        table_at .scout_base_table scout_base_table
          (random 0 + random 1 + (scout_base_modifiers world.starport).sum) = .ok scout_base ∧
        st = ({ world with scout_base := scout_base }, fun n => random (n + 2))) ∨
    (¬ ('E' ≠ world.starport ∧ 'X' ≠ world.starport) ∧ st = (world, random)) := by
  unfold throw_scout_base at h
  split at h
  · rename_i hex
    simp only [bind_eq_ok, pure_eq_ok, vgr_dice_throw_two_total,
      vgr_dice_throw_two_random] at h
    obtain ⟨v, hv, rfl⟩ := h
    exact Or.inl ⟨hex, v, hv, rfl⟩
  · rename_i hex
    simp only [pure_eq_ok] at h
    exact Or.inr ⟨hex, h.symm⟩

theorem throw_gas_giant_ok {world : vgr_world_t} {random : sf_random_t}
    {st : vgr_world_t × sf_random_t} (h : throw_gas_giant world random = .ok st) :
    ∃ gas_giant,
      table_at .gas_giant_table gas_giant_table (random 0 + random 1) = .ok gas_giant ∧
      st = ({ world with gas_giant := gas_giant }, fun n => random (n + 2)) := by
  simp only [throw_gas_giant, bind_eq_ok, pure_eq_ok, vgr_dice_throw_two_total,
    vgr_dice_throw_two_random, List.sum_nil, add_zero] at h
  obtain ⟨v, hv, rfl⟩ := h
  exact ⟨v, hv, rfl⟩

theorem throw_tech_level_ok {world : vgr_world_t} {random : sf_random_t}
    {st : vgr_world_t × sf_random_t} (h : throw_tech_level world random = .ok st) :
    (world.population ≠ 0 ∧
      ∃ modifiers, tech_level_modifiers world = .ok modifiers ∧
        st = ({ world with tech_level :=
                  if random 0 + modifiers.sum < 0 then 0 else random 0 + modifiers.sum },
              fun n => random (n + 1))) ∨
    (world.population = 0 ∧ st = (world, random)) := by
  unfold throw_tech_level at h
  split at h
  · rename_i hp
    simp only [bind_eq_ok, pure_eq_ok, vgr_dice_throw_one_total,
      vgr_dice_throw_one_random] at h
    obtain ⟨m, hm, rfl⟩ := h
    exact Or.inl ⟨hp, m, hm, rfl⟩
  · rename_i hp
    simp only [pure_eq_ok] at h
    exact Or.inr ⟨not_not.mp hp, h.symm⟩

theorem tech_level_modifiers_ok {world : vgr_world_t} {modifiers : modifier_chain}
    (h : tech_level_modifiers world = .ok modifiers) :
    ∃ m_size m_atmosphere m_hydrographics m_population m_government,
      table_at .tech_level_size_table tech_level_size_table world.size = .ok m_size ∧
      table_at .tech_level_atmosphere_table tech_level_atmosphere_table world.atmosphere
        = .ok m_atmosphere ∧
      table_at .tech_level_hydrographics_table tech_level_hydrographics_table
        world.hydrographics = .ok m_hydrographics ∧
      table_at .tech_level_population_table tech_level_population_table world.population
        = .ok m_population ∧
      table_at .tech_level_government_table tech_level_government_table world.government
        = .ok m_government ∧
      modifiers = m_government :: m_population :: m_hydrographics :: m_atmosphere :: m_size ::
        tech_level_starport_modifiers world.starport := by
  simp only [tech_level_modifiers, bind_eq_ok, pure_eq_ok] at h
  obtain ⟨a, ha, b, hb, c, hc, d, hd, e, he, rfl⟩ := h
  exact ⟨a, b, c, d, e, ha, hb, hc, hd, he, rfl⟩

theorem vgr_world_to_size_ok {name : String} {hex_coordinate : vgr_hex_coordinate}
    {random_in : sf_random_t} {st : vgr_world_t × sf_random_t}
    (h : vgr_world_to_size name hex_coordinate random_in = .ok st) :
    ∃ st1 st2 st3 st4,
      vgr_world_to_starport name hex_coordinate random_in = .ok st1 ∧
      throw_naval_base st1.1 st1.2 = .ok st2 ∧
      throw_scout_base st2.1 st2.2 = .ok st3 ∧
      throw_gas_giant st3.1 st3.2 = .ok st4 ∧
      st = throw_size st4.1 st4.2 := by
  simp only [vgr_world_to_size, bind_eq_ok, pure_eq_ok] at h
  obtain ⟨st1, h1, st2, h2, st3, h3, st4, h4, rfl⟩ := h
  exact ⟨st1, st2, st3, st4, h1, h2, h3, h4, rfl⟩

theorem vgr_world_to_population_ok {name : String} {hex_coordinate : vgr_hex_coordinate}
    {random_in : sf_random_t} {st : vgr_world_t × sf_random_t}
    (h : vgr_world_to_population name hex_coordinate random_in = .ok st) :
    ∃ st5, vgr_world_to_size name hex_coordinate random_in = .ok st5 ∧
      st = throw_population
        (throw_hydrographics (throw_atmosphere st5.1 st5.2).1 (throw_atmosphere st5.1 st5.2).2).1
        (throw_hydrographics (throw_atmosphere st5.1 st5.2).1 (throw_atmosphere st5.1 st5.2).2).2 := by
  simp only [vgr_world_to_population, bind_eq_ok, pure_eq_ok] at h
  obtain ⟨st5, h5, rfl⟩ := h
  exact ⟨st5, h5, rfl⟩

theorem vgr_world_ok {classify : vgr_world_t → List vgr_trade_classification} {name : String}
    {hex_coordinate : vgr_hex_coordinate} {random_in random_out : sf_random_t}
    {world : vgr_world_t}
    (h : vgr_world classify name hex_coordinate random_in = .ok (world, random_out)) :
    ∃ st8 st11, vgr_world_to_population name hex_coordinate random_in = .ok st8 ∧
      throw_tech_level
        (throw_law_level (throw_government st8.1 st8.2).1 (throw_government st8.1 st8.2).2).1
        (throw_law_level (throw_government st8.1 st8.2).1 (throw_government st8.1 st8.2).2).2
        = .ok st11 ∧
      world = { st11.1 with trade_classifications := classify st11.1 } ∧
      random_out = st11.2 := by
  simp only [vgr_world, bind_eq_ok, pure_eq_ok, Prod.mk.injEq] at h
  obtain ⟨st8, h8, st11, h11, rfl, rfl⟩ := h
  exact ⟨st8, st11, h8, h11, rfl, rfl⟩

/-! ## Ranges of the attributes -/

theorem attributes_bounded_calloc (name : String) (hex_coordinate : vgr_hex_coordinate) :
    attributes_bounded (sf_object_calloc name hex_coordinate) := by
  constructor <;> simp [sf_object_calloc]

theorem throw_size_bounded {world : vgr_world_t} {random : sf_random_t}
    (hr : draws_in_range 6 random) (hw : attributes_bounded world) :
    attributes_bounded (throw_size world random).1 ∧
      draws_in_range 6 (throw_size world random).2 := by
  have h0 := hr 0
  have h1 := hr 1
  obtain ⟨a, b, c, d, e, f, g⟩ := hw
  refine ⟨⟨?_, ?_, ?_, ?_, ?_, ?_, ?_⟩, ?_⟩ <;>
    simp only [throw_size, vgr_dice_throw_two_total, vgr_dice_throw_two_random,
      List.sum_cons, List.sum_nil] <;>
    first
      | exact draws_in_range_shift 2 hr
      | omega

theorem throw_atmosphere_bounded {world : vgr_world_t} {random : sf_random_t}
    (hr : draws_in_range 6 random) (hw : attributes_bounded world) :
    attributes_bounded (throw_atmosphere world random).1 ∧
      draws_in_range 6 (throw_atmosphere world random).2 := by
  have h0 := hr 0
  have h1 := hr 1
  obtain ⟨a, b, c, d, e, f, g⟩ := hw
  unfold throw_atmosphere
  split
  · exact ⟨⟨a, by simp, c, d, e, f, g⟩, hr⟩
  · refine ⟨⟨?_, ?_, ?_, ?_, ?_, ?_, ?_⟩, ?_⟩ <;>
    simp only [vgr_dice_throw_two_total, vgr_dice_throw_two_random,
      List.sum_cons, List.sum_nil] <;>
    first
      | exact draws_in_range_shift 2 hr
      | (split <;> omega)
      | omega

theorem throw_hydrographics_bounded {world : vgr_world_t} {random : sf_random_t}
    (hr : draws_in_range 6 random) (hw : attributes_bounded world) :
    attributes_bounded (throw_hydrographics world random).1 ∧
      draws_in_range 6 (throw_hydrographics world random).2 := by
  obtain ⟨a, b, c, d, e, f, g⟩ := hw
  unfold throw_hydrographics
  split
  · exact ⟨⟨a, b, by simp, d, e, f, g⟩, hr⟩
  · refine ⟨⟨a, b, ?_, d, e, f, g⟩, ?_⟩
    · simp only
      constructor <;> (split <;> split <;> omega)
    · simp only [vgr_dice_throw_two_random]
      exact draws_in_range_shift 2 hr

theorem throw_population_bounded {world : vgr_world_t} {random : sf_random_t}
    (hr : draws_in_range 6 random) (hw : attributes_bounded world) :
    attributes_bounded (throw_population world random).1 ∧
      draws_in_range 6 (throw_population world random).2 := by
  have h0 := hr 0
  have h1 := hr 1
  obtain ⟨a, b, c, d, e, f, g⟩ := hw
  refine ⟨⟨?_, ?_, ?_, ?_, ?_, ?_, ?_⟩, ?_⟩ <;>
    simp only [throw_population, vgr_dice_throw_two_total, vgr_dice_throw_two_random,
      List.sum_cons, List.sum_nil] <;>
    first
      | exact draws_in_range_shift 2 hr
      | omega

theorem throw_government_bounded {world : vgr_world_t} {random : sf_random_t}
    (hr : draws_in_range 6 random) (hw : attributes_bounded world) :
    attributes_bounded (throw_government world random).1 ∧
      draws_in_range 6 (throw_government world random).2 := by
  have h0 := hr 0
  have h1 := hr 1
  obtain ⟨a, b, c, d, e, f, g⟩ := hw
  unfold throw_government
  split
  · exact ⟨⟨a, b, c, d, by simp, f, g⟩, hr⟩
  · refine ⟨⟨?_, ?_, ?_, ?_, ?_, ?_, ?_⟩, ?_⟩ <;>
    simp only [vgr_dice_throw_two_total, vgr_dice_throw_two_random,
      List.sum_cons, List.sum_nil] <;>
    first
      | exact draws_in_range_shift 2 hr
      | (split <;> omega)
      | omega

theorem throw_law_level_bounded {world : vgr_world_t} {random : sf_random_t}
    (hr : draws_in_range 6 random) (hw : attributes_bounded world) :
    attributes_bounded (throw_law_level world random).1 ∧
      draws_in_range 6 (throw_law_level world random).2 := by
  have h0 := hr 0
  have h1 := hr 1
  obtain ⟨a, b, c, d, e, f, g⟩ := hw
  unfold throw_law_level
  split
  · exact ⟨⟨a, b, c, d, e, by simp, g⟩, hr⟩
  · refine ⟨⟨?_, ?_, ?_, ?_, ?_, ?_, ?_⟩, ?_⟩ <;>
    simp only [vgr_dice_throw_two_total, vgr_dice_throw_two_random,
      List.sum_cons, List.sum_nil] <;>
    first
      | exact draws_in_range_shift 2 hr
      | (split <;> omega)
      | omega

theorem throw_starport_bounded {world : vgr_world_t} {random : sf_random_t}
    {st : vgr_world_t × sf_random_t} (h : throw_starport world random = .ok st)
    (hr : draws_in_range 6 random) (hw : attributes_bounded world) :
    attributes_bounded st.1 ∧ draws_in_range 6 st.2 := by
  obtain ⟨v, -, rfl⟩ := throw_starport_ok h
  exact ⟨⟨hw.1, hw.2, hw.3, hw.4, hw.5, hw.6, hw.7⟩, draws_in_range_shift 2 hr⟩

theorem throw_naval_base_bounded {world : vgr_world_t} {random : sf_random_t}
    {st : vgr_world_t × sf_random_t} (h : throw_naval_base world random = .ok st)
    (hr : draws_in_range 6 random) (hw : attributes_bounded world) :
    attributes_bounded st.1 ∧ draws_in_range 6 st.2 := by
  rcases throw_naval_base_ok h with ⟨-, v, -, rfl⟩ | ⟨-, rfl⟩
  · exact ⟨⟨hw.1, hw.2, hw.3, hw.4, hw.5, hw.6, hw.7⟩, draws_in_range_shift 2 hr⟩
  · exact ⟨hw, hr⟩

theorem throw_scout_base_bounded {world : vgr_world_t} {random : sf_random_t}
    {st : vgr_world_t × sf_random_t} (h : throw_scout_base world random = .ok st)
    (hr : draws_in_range 6 random) (hw : attributes_bounded world) :
    attributes_bounded st.1 ∧ draws_in_range 6 st.2 := by
  rcases throw_scout_base_ok h with ⟨-, v, -, rfl⟩ | ⟨-, rfl⟩
  · exact ⟨⟨hw.1, hw.2, hw.3, hw.4, hw.5, hw.6, hw.7⟩, draws_in_range_shift 2 hr⟩
  · exact ⟨hw, hr⟩

theorem throw_gas_giant_bounded {world : vgr_world_t} {random : sf_random_t}
    {st : vgr_world_t × sf_random_t} (h : throw_gas_giant world random = .ok st)
    (hr : draws_in_range 6 random) (hw : attributes_bounded world) :
    attributes_bounded st.1 ∧ draws_in_range 6 st.2 := by
  obtain ⟨v, -, rfl⟩ := throw_gas_giant_ok h
  exact ⟨⟨hw.1, hw.2, hw.3, hw.4, hw.5, hw.6, hw.7⟩, draws_in_range_shift 2 hr⟩

theorem tech_level_starport_modifiers_sum (starport : Char) :
    -4 ≤ (tech_level_starport_modifiers starport).sum ∧
      (tech_level_starport_modifiers starport).sum ≤ 6 := by
  unfold tech_level_starport_modifiers
  split_ifs <;> simp

theorem tech_level_modifiers_sum {world : vgr_world_t} {modifiers : modifier_chain}
    (h : tech_level_modifiers world = .ok modifiers) :
    -6 ≤ modifiers.sum ∧ modifiers.sum ≤ 16 := by
  obtain ⟨s, a, y, p, g, hs, ha, hy, hp, hg, rfl⟩ := tech_level_modifiers_ok h
  have hs : 0 ≤ s ∧ s ≤ 2 :=
    (by decide : ∀ v ∈ tech_level_size_table, 0 ≤ v ∧ v ≤ 2) s (table_at_mem hs)
  have ha : 0 ≤ a ∧ a ≤ 1 :=
    (by decide : ∀ v ∈ tech_level_atmosphere_table, 0 ≤ v ∧ v ≤ 1) a (table_at_mem ha)
  have hy : 0 ≤ y ∧ y ≤ 2 :=
    (by decide : ∀ v ∈ tech_level_hydrographics_table, 0 ≤ v ∧ v ≤ 2) y (table_at_mem hy)
  have hp : 0 ≤ p ∧ p ≤ 4 :=
    (by decide : ∀ v ∈ tech_level_population_table, 0 ≤ v ∧ v ≤ 4) p (table_at_mem hp)
  have hg : -2 ≤ g ∧ g ≤ 1 :=
    (by decide : ∀ v ∈ tech_level_government_table, -2 ≤ v ∧ v ≤ 1) g (table_at_mem hg)
  have hb := tech_level_starport_modifiers_sum world.starport
  simp only [List.sum_cons]
  omega

theorem throw_tech_level_bounded {world : vgr_world_t} {random : sf_random_t}
    {st : vgr_world_t × sf_random_t} (h : throw_tech_level world random = .ok st)
    (hr : draws_in_range 6 random) (hw : attributes_bounded world) :
    attributes_bounded st.1 ∧ draws_in_range 6 st.2 := by
  rcases throw_tech_level_ok h with ⟨-, m, hm, rfl⟩ | ⟨-, rfl⟩
  · have h0 := hr 0
    have hs := tech_level_modifiers_sum hm
    refine ⟨⟨hw.1, hw.2, hw.3, hw.4, hw.5, hw.6, ?_⟩, draws_in_range_shift 1 hr⟩
    simp only
    constructor <;> (split <;> omega)
  · exact ⟨hw, hr⟩

theorem vgr_world_to_size_bounded {name : String} {hex_coordinate : vgr_hex_coordinate}
    {random_in : sf_random_t} {st : vgr_world_t × sf_random_t}
    (h : vgr_world_to_size name hex_coordinate random_in = .ok st)
    (hr : draws_in_range 6 random_in) :
    attributes_bounded st.1 ∧ draws_in_range 6 st.2 := by
  obtain ⟨st1, st2, st3, st4, h1, h2, h3, h4, rfl⟩ := vgr_world_to_size_ok h
  have b1 := throw_starport_bounded h1 hr (attributes_bounded_calloc name hex_coordinate)
  have b2 := throw_naval_base_bounded h2 b1.2 b1.1
  have b3 := throw_scout_base_bounded h3 b2.2 b2.1
  have b4 := throw_gas_giant_bounded h4 b3.2 b3.1
  exact throw_size_bounded b4.2 b4.1

theorem vgr_world_to_population_bounded {name : String} {hex_coordinate : vgr_hex_coordinate}
    {random_in : sf_random_t} {st : vgr_world_t × sf_random_t}
    (h : vgr_world_to_population name hex_coordinate random_in = .ok st)
    (hr : draws_in_range 6 random_in) :
    attributes_bounded st.1 ∧ draws_in_range 6 st.2 := by
  obtain ⟨st5, h5, rfl⟩ := vgr_world_to_population_ok h
  have b5 := vgr_world_to_size_bounded h5 hr
  have b6 := throw_atmosphere_bounded b5.2 b5.1
  have b7 := throw_hydrographics_bounded b6.2 b6.1
  exact throw_population_bounded b7.2 b7.1

theorem vgr_world_bounded {classify : vgr_world_t → List vgr_trade_classification}
    {name : String} {hex_coordinate : vgr_hex_coordinate} {random_in random_out : sf_random_t}
    {world : vgr_world_t}
    (h : vgr_world classify name hex_coordinate random_in = .ok (world, random_out))
    (hr : draws_in_range 6 random_in) :
    attributes_bounded world ∧ draws_in_range 6 random_out := by
  obtain ⟨st8, st11, h8, h11, rfl, rfl⟩ := vgr_world_ok h
  have b8 := vgr_world_to_population_bounded h8 hr
  have b9 := throw_government_bounded b8.2 b8.1
  have b10 := throw_law_level_bounded b9.2 b9.1
  have b11 := throw_tech_level_bounded h11 b10.2 b10.1
  exact ⟨⟨b11.1.1, b11.1.2, b11.1.3, b11.1.4, b11.1.5, b11.1.6, b11.1.7⟩, b11.2⟩

/-! ## Which fields each stage writes -/

theorem throw_size_world (world : vgr_world_t) (random : sf_random_t) :
    ∃ v, (throw_size world random).1 = { world with size := v } :=
  ⟨_, rfl⟩

theorem throw_atmosphere_world (world : vgr_world_t) (random : sf_random_t) :
    ∃ v, (throw_atmosphere world random).1 = { world with atmosphere := v } := by
  unfold throw_atmosphere
  split <;> exact ⟨_, rfl⟩

theorem throw_hydrographics_world (world : vgr_world_t) (random : sf_random_t) :
    ∃ v, (throw_hydrographics world random).1 = { world with hydrographics := v } := by
  unfold throw_hydrographics
  split <;> exact ⟨_, rfl⟩

theorem throw_population_world (world : vgr_world_t) (random : sf_random_t) :
    ∃ v, (throw_population world random).1 = { world with population := v } :=
  ⟨_, rfl⟩

theorem throw_government_world (world : vgr_world_t) (random : sf_random_t) :
    ∃ v, (throw_government world random).1 = { world with government := v } := by
  unfold throw_government
  split <;> exact ⟨_, rfl⟩

theorem throw_law_level_world (world : vgr_world_t) (random : sf_random_t) :
    ∃ v, (throw_law_level world random).1 = { world with law_level := v } := by
  unfold throw_law_level
  split <;> exact ⟨_, rfl⟩

theorem throw_naval_base_world {world : vgr_world_t} {random : sf_random_t}
    {st : vgr_world_t × sf_random_t} (h : throw_naval_base world random = .ok st) :
    ∃ v, st.1 = { world with naval_base := v } := by
  rcases throw_naval_base_ok h with ⟨-, v, -, rfl⟩ | ⟨-, rfl⟩
  · exact ⟨v, rfl⟩
  · exact ⟨world.naval_base, rfl⟩

theorem throw_scout_base_world {world : vgr_world_t} {random : sf_random_t}
    {st : vgr_world_t × sf_random_t} (h : throw_scout_base world random = .ok st) :
    ∃ v, st.1 = { world with scout_base := v } := by
  rcases throw_scout_base_ok h with ⟨-, v, -, rfl⟩ | ⟨-, rfl⟩
  · exact ⟨v, rfl⟩
  · exact ⟨world.scout_base, rfl⟩

theorem throw_tech_level_world {world : vgr_world_t} {random : sf_random_t}
    {st : vgr_world_t × sf_random_t} (h : throw_tech_level world random = .ok st) :
    ∃ v, st.1 = { world with tech_level := v } := by
  rcases throw_tech_level_ok h with ⟨-, m, -, rfl⟩ | ⟨-, rfl⟩
  · exact ⟨_, rfl⟩
  · exact ⟨world.tech_level, rfl⟩

/-! ## Stages that are skipped -/

theorem throw_naval_base_skip {world : vgr_world_t} (random : sf_random_t)
    (h : ¬ ('A' = world.starport ∨ 'B' = world.starport)) :
    throw_naval_base world random = .ok (world, random) := by
  simp only [throw_naval_base, if_neg h]
  rfl

theorem throw_scout_base_skip {world : vgr_world_t} (random : sf_random_t)
    (h : world.starport = 'E' ∨ world.starport = 'X') :
    throw_scout_base world random = .ok (world, random) := by
  have hn : ¬ ('E' ≠ world.starport ∧ 'X' ≠ world.starport) := by
    rcases h with h | h <;> simp [h]
  simp only [throw_scout_base, if_neg hn]
  rfl

theorem throw_atmosphere_skip {world : vgr_world_t} (random : sf_random_t)
    (hs : world.size = 0) (ha : world.atmosphere = 0) :
    throw_atmosphere world random = (world, random) := by
  cases world
  simp only at hs ha
  subst hs ha
  rfl

theorem throw_hydrographics_skip {world : vgr_world_t} (random : sf_random_t)
    (hs : world.size = 0) (hh : world.hydrographics = 0) :
    throw_hydrographics world random = (world, random) := by
  cases world
  simp only at hs hh
  subst hs hh
  rfl

theorem throw_government_skip {world : vgr_world_t} (random : sf_random_t)
    (hp : world.population = 0) (hg : world.government = 0) :
    throw_government world random = (world, random) := by
  cases world
  simp only at hp hg
  subst hp hg
  rfl

theorem throw_law_level_skip {world : vgr_world_t} (random : sf_random_t)
    (hp : world.population = 0) (hl : world.law_level = 0) :
    throw_law_level world random = (world, random) := by
  cases world
  simp only at hp hl
  subst hp hl
  rfl

theorem throw_tech_level_skip {world : vgr_world_t} (random : sf_random_t)
    (hp : world.population = 0) :
    throw_tech_level world random = .ok (world, random) := by
  simp only [throw_tech_level, hp, ne_eq, not_true_eq_false, if_false]
  rfl

/-! ## The world after each part of `vgr_world` -/

theorem vgr_world_to_starport_world {name : String} {hex_coordinate : vgr_hex_coordinate}
    {random_in : sf_random_t} {st : vgr_world_t × sf_random_t}
    (h : vgr_world_to_starport name hex_coordinate random_in = .ok st) :
    ∃ a, st.1 = { sf_object_calloc name hex_coordinate with starport := a } := by
  obtain ⟨a, -, rfl⟩ := throw_starport_ok h
  exact ⟨a, rfl⟩

theorem vgr_world_to_size_world {name : String} {hex_coordinate : vgr_hex_coordinate}
    {random_in : sf_random_t} {st : vgr_world_t × sf_random_t}
    (h : vgr_world_to_size name hex_coordinate random_in = .ok st) :
    ∃ a b c d e, st.1 = { sf_object_calloc name hex_coordinate with
      starport := a, naval_base := b, scout_base := c, gas_giant := d, size := e } := by
  obtain ⟨st1, st2, st3, st4, h1, h2, h3, h4, rfl⟩ := vgr_world_to_size_ok h
  obtain ⟨a, ha⟩ := vgr_world_to_starport_world h1
  obtain ⟨b, hb⟩ := throw_naval_base_world h2
  obtain ⟨c, hc⟩ := throw_scout_base_world h3
  obtain ⟨d, -, rfl⟩ := throw_gas_giant_ok h4
  obtain ⟨e, he⟩ := throw_size_world { st3.1 with gas_giant := d } (fun n => st3.2 (n + 2))
  refine ⟨a, b, c, d, e, ?_⟩
  rw [he, hc, hb, ha]

theorem vgr_world_to_population_world {name : String} {hex_coordinate : vgr_hex_coordinate}
    {random_in : sf_random_t} {st : vgr_world_t × sf_random_t}
    (h : vgr_world_to_population name hex_coordinate random_in = .ok st) :
    ∃ st5 b c d, vgr_world_to_size name hex_coordinate random_in = .ok st5 ∧
      st.1 = { st5.1 with atmosphere := b, hydrographics := c, population := d } := by
  obtain ⟨st5, h5, rfl⟩ := vgr_world_to_population_ok h
  obtain ⟨b, hb⟩ := throw_atmosphere_world st5.1 st5.2
  generalize throw_atmosphere st5.1 st5.2 = s6 at hb ⊢
  obtain ⟨c, hc⟩ := throw_hydrographics_world s6.1 s6.2
  generalize throw_hydrographics s6.1 s6.2 = s7 at hc ⊢
  obtain ⟨d, hd⟩ := throw_population_world s7.1 s7.2
  refine ⟨st5, b, c, d, h5, ?_⟩
  rw [hd, hc, hb]

theorem vgr_world_world {classify : vgr_world_t → List vgr_trade_classification}
    {name : String} {hex_coordinate : vgr_hex_coordinate} {random_in random_out : sf_random_t}
    {world : vgr_world_t}
    (h : vgr_world classify name hex_coordinate random_in = .ok (world, random_out)) :
    ∃ st8 e f g t, vgr_world_to_population name hex_coordinate random_in = .ok st8 ∧
      world = { st8.1 with government := e, law_level := f, tech_level := g,
                           trade_classifications := t } := by
  obtain ⟨st8, st11, h8, h11, rfl, rfl⟩ := vgr_world_ok h
  obtain ⟨e, he⟩ := throw_government_world st8.1 st8.2
  generalize throw_government st8.1 st8.2 = s9 at he h11
  obtain ⟨f, hf⟩ := throw_law_level_world s9.1 s9.2
  generalize throw_law_level s9.1 s9.2 = s10 at hf h11
  obtain ⟨g, hg⟩ := throw_tech_level_world h11
  refine ⟨st8, e, f, g, classify st11.1, h8, ?_⟩
  rw [hg, hf, he]

/-! ## The join and the line -/

theorem join_from_some (suffix : String) (strings : List String) (text : String) :
    strings.foldl (fun joined s => stpcpy (stpcpy joined s) suffix) (some text)
      = some (text ++ spec_join_with_suffix suffix strings) := by
  induction strings generalizing text with
  | nil => simp [spec_join_with_suffix]
  | cons s rest ih =>
    have step : stpcpy (stpcpy (some text) s) suffix = some (text ++ s ++ suffix) := rfl
    rw [List.foldl_cons, step, ih]
    simp only [spec_join_with_suffix, String.append_assoc]

theorem join_of_ne_nil (suffix : String) (strings : List String) (h : strings ≠ []) :
    sj_string_alloc_join_strings_with_suffix strings suffix
      = some (spec_join_with_suffix suffix strings) := by
  cases strings with
  | nil => exact absurd rfl h
  | cons s rest =>
    have step : stpcpy (stpcpy none s) suffix = some (s ++ suffix) := rfl
    unfold sj_string_alloc_join_strings_with_suffix
    rw [List.foldl_cons, step, join_from_some]
    rfl

theorem hex_digit_of_in_range {value : Int} (h : 0 ≤ value ∧ value ≤ 34) :
    hex_digit value = .ok (hex_digit_char value) := by
  simp [hex_digit, h.1, h.2]

theorem attributes_bounded_hex_digits {world : vgr_world_t} (h : attributes_bounded world) :
    hex_digits_in_range world := by
  obtain ⟨a, b, c, d, e, f, g⟩ := h
  constructor <;> omega

theorem left_justify_length (width : Nat) (text : String) :
    (left_justify width text).length = text.length + (width - text.length) := by
  simp [left_justify]

theorem left_justify_of_le (width : Nat) (text : String) (h : width ≤ text.length) :
    left_justify width text = text := by
  simp [left_justify, Nat.sub_eq_zero_of_le h]

theorem line_before_classifications_length (fmt : vgr_hex_coordinate → String)
    (world : vgr_world_t) :
    (line_before_classifications fmt world).length
      = (left_justify 18 world.name).length
        + (right_justify 4 (fmt world.hex_coordinate)).length + 14 := by
  simp only [line_before_classifications, String.length_append, String.length_mk,
    List.length_cons, List.length_nil]
  have : (" " : String).length = 1 := rfl
  have : ("-" : String).length = 1 := rfl
  omega

/-- What `string_from` returns for a world that has at least one classification
and whose attributes pass the assertions of `hex_digit`. -/
theorem string_from_eq (fmt : vgr_hex_coordinate → String) (world : vgr_world_t)
    (hd : hex_digits_in_range world) (hne : world.trade_classifications ≠ []) :
    string_from fmt world
      = .ok (line_before_classifications fmt world
          ++ left_justify 42 (spec_classification_ladder world) ++ gas_giant_marker world) := by
  have hn : world.trade_classifications.map (·.name) ≠ [] := by simpa using hne
  have hs : world.trade_classifications.map (·.short_name) ≠ [] := by simpa using hne
  have ha : world.trade_classifications.map (·.abbreviation) ≠ [] := by simpa using hne
  simp only [string_from, vgr_strarray_alloc_collect_strings, join_of_ne_nil _ _ hn,
    join_of_ne_nil _ _ hs, join_of_ne_nil _ _ ha, c_string, bind, Except.bind, pure,
    Except.pure,
    hex_digit_of_in_range hd.size, hex_digit_of_in_range hd.atmosphere,
    hex_digit_of_in_range hd.hydrographics, hex_digit_of_in_range hd.population,
    hex_digit_of_in_range hd.government, hex_digit_of_in_range hd.law_level,
    hex_digit_of_in_range hd.tech_level]
  unfold spec_classification_ladder full_name_join short_name_join abbreviation_join
  by_cases h1 : (spec_join_with_suffix ". " (world.trade_classifications.map (·.name))).length ≤ 42
  · have h1' : ¬ (spec_join_with_suffix ". "
        (world.trade_classifications.map (·.name))).length > 42 := by omega
    simp only [h1, h1', if_true, if_false]
    rfl
  · have h1' : (spec_join_with_suffix ". "
        (world.trade_classifications.map (·.name))).length > 42 := by omega
    by_cases h2 : (spec_join_with_suffix ". "
        (world.trade_classifications.map (·.short_name))).length ≤ 42
    · have h2' : ¬ (spec_join_with_suffix ". "
          (world.trade_classifications.map (·.short_name))).length > 42 := by omega
      simp only [h1, h1', h2, h2', if_true, if_false]
      rfl
    · have h2' : (spec_join_with_suffix ". "
          (world.trade_classifications.map (·.short_name))).length > 42 := by omega
      simp only [h1, h1', h2, h2', if_true, if_false]
      rfl

/-! ## The only faults on dice in `[1, 6]` -/

theorem bind_eq_error {α β : Type} (x : Except Fault α) (f : α → Except Fault β)
    (fault : Fault) :
    (x >>= f) = .error fault ↔ x = .error fault ∨ ∃ a, x = .ok a ∧ f a = .error fault := by
  cases x with
  | error e => simp [bind, Except.bind]
  | ok a => simp [bind, Except.bind]

theorem pure_ne_error {α : Type} (a : α) (fault : Fault) :
    (pure a : Except Fault α) ≠ .error fault := by
  simp [pure, Except.pure]

theorem throw_starport_no_fault {world : vgr_world_t} {random : sf_random_t}
    (hr : draws_in_range 6 random) (fault : Fault) :
    throw_starport world random ≠ .error fault := by
  intro h
  have h0 := hr 0
  have h1 := hr 1
  simp only [throw_starport, bind_eq_error, vgr_dice_throw_two_total, List.sum_nil,
    add_zero] at h
  rcases h with h | ⟨a, -, h⟩
  · have := (table_at_error h).2
    simp only [starport_table, List.length_cons, List.length_nil] at this
    omega
  · exact pure_ne_error _ _ h

theorem throw_naval_base_no_fault {world : vgr_world_t} {random : sf_random_t}
    (hr : draws_in_range 6 random) (fault : Fault) :
    throw_naval_base world random ≠ .error fault := by
  intro h
  have h0 := hr 0
  have h1 := hr 1
  unfold throw_naval_base at h
  split at h
  · simp only [bind_eq_error, vgr_dice_throw_two_total, List.sum_nil, add_zero] at h
    rcases h with h | ⟨a, -, h⟩
    · have := (table_at_error h).2
      simp only [naval_base_table, List.length_cons, List.length_nil] at this
      omega
    · exact pure_ne_error _ _ h
  · exact pure_ne_error _ _ h

theorem throw_gas_giant_no_fault {world : vgr_world_t} {random : sf_random_t}
    (hr : draws_in_range 6 random) (fault : Fault) :
    throw_gas_giant world random ≠ .error fault := by
  intro h
  have h0 := hr 0
  have h1 := hr 1
  simp only [throw_gas_giant, bind_eq_error, vgr_dice_throw_two_total, List.sum_nil,
    add_zero] at h
  rcases h with h | ⟨a, -, h⟩
  · have := (table_at_error h).2
    simp only [gas_giant_table, List.length_cons, List.length_nil] at this
    omega
  · exact pure_ne_error _ _ h

theorem scout_base_modifiers_sum (starport : Char) :
    -3 ≤ (scout_base_modifiers starport).sum ∧ (scout_base_modifiers starport).sum ≤ 0 := by
  unfold scout_base_modifiers
  split_ifs <;> simp

theorem throw_scout_base_fault {world : vgr_world_t} {random : sf_random_t}
    (hr : draws_in_range 6 random) {fault : Fault}
    (h : throw_scout_base world random = .error fault) :
    fault = .index_out_of_range .scout_base_table (-1) := by
  have h0 := hr 0
  have h1 := hr 1
  have hm := scout_base_modifiers_sum world.starport
  unfold throw_scout_base at h
  split at h
  · simp only [bind_eq_error, vgr_dice_throw_two_total] at h
    rcases h with h | ⟨a, -, h⟩
    · obtain ⟨rfl, hi⟩ := table_at_error h
      simp only [scout_base_table, List.length_cons, List.length_nil] at hi
      have : random 0 + random 1 + (scout_base_modifiers world.starport).sum = -1 := by
        omega
      rw [this]
    · exact absurd h (pure_ne_error _ _)
  · exact absurd h (pure_ne_error _ _)

theorem tech_level_modifiers_fault {world : vgr_world_t} (hw : attributes_bounded world)
    {fault : Fault} (h : tech_level_modifiers world = .error fault) :
    fault = .index_out_of_range .tech_level_atmosphere_table 15 := by
  obtain ⟨a, b, c, d, e, -, -⟩ := hw
  simp only [tech_level_modifiers, bind_eq_error] at h
  rcases h with h | ⟨_, -, h | ⟨_, -, h | ⟨_, -, h | ⟨_, -, h | ⟨_, -, h⟩⟩⟩⟩⟩
  · have := (table_at_error h).2
    simp only [tech_level_size_table, List.length_cons, List.length_nil] at this
    omega
  · obtain ⟨rfl, hi⟩ := table_at_error h
    simp only [tech_level_atmosphere_table, List.length_cons, List.length_nil] at hi
    have : world.atmosphere = 15 := by omega
    rw [this]
  · have := (table_at_error h).2
    simp only [tech_level_hydrographics_table, List.length_cons, List.length_nil] at this
    omega
  · have := (table_at_error h).2
    simp only [tech_level_population_table, List.length_cons, List.length_nil] at this
    omega
  · have := (table_at_error h).2
    simp only [tech_level_government_table, List.length_cons, List.length_nil] at this
    omega
  · exact absurd h (pure_ne_error _ _)

theorem throw_tech_level_fault {world : vgr_world_t} {random : sf_random_t}
    (hw : attributes_bounded world) {fault : Fault}
    (h : throw_tech_level world random = .error fault) :
    fault = .index_out_of_range .tech_level_atmosphere_table 15 := by
  unfold throw_tech_level at h
  split at h
  · simp only [bind_eq_error] at h
    rcases h with h | ⟨_, -, h⟩
    · exact tech_level_modifiers_fault hw h
    · exact absurd h (pure_ne_error _ _)
  · exact absurd h (pure_ne_error _ _)

/-- On dice in `[1, 6]` the only array reads of `vgr_world` that can leave their
table are the scout base read at index -1 and the tech level atmosphere read at
index 15; every other index is within its table. -/
theorem vgr_world_fault {classify : vgr_world_t → List vgr_trade_classification}
    {name : String} {hex_coordinate : vgr_hex_coordinate} {random_in : sf_random_t}
    (hr : draws_in_range 6 random_in) {fault : Fault}
    (h : vgr_world classify name hex_coordinate random_in = .error fault) :
    fault = .index_out_of_range .scout_base_table (-1) ∨
      fault = .index_out_of_range .tech_level_atmosphere_table 15 := by
  simp only [vgr_world, bind_eq_error] at h
  rcases h with h | ⟨st8, h8, h⟩
  · simp only [vgr_world_to_population, bind_eq_error] at h
    rcases h with h | ⟨_, -, h⟩
    · simp only [vgr_world_to_size, bind_eq_error] at h
      rcases h with h | ⟨st1, h1, h | ⟨st2, h2, h | ⟨st3, h3, h | ⟨_, -, h⟩⟩⟩⟩
      · exact absurd h (throw_starport_no_fault hr _)
      · have b1 := throw_starport_bounded h1 hr (attributes_bounded_calloc name hex_coordinate)
        exact absurd h (throw_naval_base_no_fault b1.2 _)
      · have b1 := throw_starport_bounded h1 hr (attributes_bounded_calloc name hex_coordinate)
        have b2 := throw_naval_base_bounded h2 b1.2 b1.1
        exact Or.inl (throw_scout_base_fault b2.2 h)
      · have b1 := throw_starport_bounded h1 hr (attributes_bounded_calloc name hex_coordinate)
        have b2 := throw_naval_base_bounded h2 b1.2 b1.1
        have b3 := throw_scout_base_bounded h3 b2.2 b2.1
        exact absurd h (throw_gas_giant_no_fault b3.2 _)
      · exact absurd h (pure_ne_error _ _)
    · exact absurd h (pure_ne_error _ _)
  · have b8 := vgr_world_to_population_bounded h8 hr
    have b9 := throw_government_bounded b8.2 b8.1
    have b10 := throw_law_level_bounded b9.2 b9.1
    rcases h with h | ⟨_, -, h⟩
    · exact Or.inr (throw_tech_level_fault b10.1 h)
    · exact absurd h (pure_ne_error _ _)

theorem stream_of_in_range (draws : List Int) (then_always : Int)
    (hd : ∀ v ∈ draws, 1 ≤ v ∧ v ≤ 6) (ht : 1 ≤ then_always ∧ then_always ≤ 6) :
    draws_in_range 6 (stream_of draws then_always) := by
  intro n
  unfold stream_of
  rw [List.getD_eq_getElem?_getD]
  cases hn : draws[n]? with
  | none => simpa using ht
  | some v => simpa using hd v (List.getElem?_mem hn)

theorem draws_in_range_const (v : Int) (h1 : 1 ≤ v) (h6 : v ≤ 6) :
    draws_in_range 6 (fun _ => v) :=
  fun _ => ⟨h1, h6⟩

/-! ## The digits -/

theorem hex_digit_char_toNat {value : Int} (h0 : 0 ≤ value) (h34 : value ≤ 34) :
    ((hex_digit_char value).toNat : Int) = if value < 10 then 48 + value else 55 + value := by
  interval_cases value <;> rfl

/-! ## The value each stage writes -/

theorem natural_two_dice_eq (random : sf_random_t) :
    natural_two_dice random = random 0 + random 1 := by
  simp [natural_two_dice, vgr_dice_throw, roll_dice, sf_random_next]

theorem natural_one_die_eq (random : sf_random_t) : natural_one_die random = random 0 := by
  simp [natural_one_die, vgr_dice_throw, roll_dice, sf_random_next]

theorem throw_atmosphere_value (world : vgr_world_t) (random : sf_random_t)
    (hs : world.size ≠ 0) :
    (throw_atmosphere world random).1.atmosphere
      = max 0 (natural_two_dice random - 7 + world.size) := by
  have hs' : ¬ (0 = world.size) := fun h => hs h.symm
  simp only [throw_atmosphere, if_neg hs', vgr_dice_throw_two_total, List.sum_cons,
    List.sum_nil, natural_two_dice_eq]
  split <;> omega

theorem throw_hydrographics_value (world : vgr_world_t) (random : sf_random_t)
    (hs : world.size ≠ 0) :
    (throw_hydrographics world random).1.hydrographics
      = spec_clamp 0 10 (natural_two_dice random + (world.atmosphere - 7)
          - (if world.atmosphere = 0 ∨ world.atmosphere = 1 ∨ 10 ≤ world.atmosphere
              then 4 else 0)) := by
  have hs' : ¬ (0 = world.size) := fun h => hs h.symm
  simp only [throw_hydrographics, if_neg hs', vgr_dice_throw_two_total, natural_two_dice_eq,
    spec_clamp]
  by_cases ha : 0 = world.atmosphere ∨ 1 = world.atmosphere ∨ world.atmosphere ≥ 10
  · have ha' : world.atmosphere = 0 ∨ world.atmosphere = 1 ∨ 10 ≤ world.atmosphere := by
      omega
    simp only [if_pos ha, if_pos ha', List.sum_cons, List.sum_nil]
    split_ifs <;> omega
  · have ha' : ¬ (world.atmosphere = 0 ∨ world.atmosphere = 1 ∨ 10 ≤ world.atmosphere) := by
      omega
    simp only [if_neg ha, if_neg ha', List.sum_cons, List.sum_nil]
    split_ifs <;> omega

theorem throw_government_value (world : vgr_world_t) (random : sf_random_t)
    (hp : world.population ≠ 0) :
    (throw_government world random).1.government
      = max 0 (natural_two_dice random - 7 + world.population) := by
  have hp' : ¬ (0 = world.population) := fun h => hp h.symm
  simp only [throw_government, if_neg hp', vgr_dice_throw_two_total, List.sum_cons,
    List.sum_nil, natural_two_dice_eq]
  split <;> omega

theorem throw_law_level_value (world : vgr_world_t) (random : sf_random_t)
    (hp : world.population ≠ 0) :
    (throw_law_level world random).1.law_level
      = max 0 (natural_two_dice random - 7 + world.government) := by
  have hp' : ¬ (0 = world.population) := fun h => hp h.symm
  simp only [throw_law_level, if_neg hp', vgr_dice_throw_two_total, List.sum_cons,
    List.sum_nil, natural_two_dice_eq]
  split <;> omega

/-! ## Where the fields of the final world come from -/

/-- The fields of the state after the population throw, in terms of the state
after the size throw. -/
theorem fields_after_population (world : vgr_world_t) (random : sf_random_t) :
    let a := throw_atmosphere world random
    let y := throw_hydrographics a.1 a.2
    let p := throw_population y.1 y.2
    p.1.starport = world.starport ∧ p.1.naval_base = world.naval_base ∧
    p.1.scout_base = world.scout_base ∧ p.1.gas_giant = world.gas_giant ∧
    p.1.size = world.size ∧ a.1.size = world.size ∧
    p.1.atmosphere = a.1.atmosphere ∧ p.1.hydrographics = y.1.hydrographics := by
  intro a y p
  obtain ⟨va, ha⟩ := throw_atmosphere_world world random
  obtain ⟨vy, hy⟩ := throw_hydrographics_world a.1 a.2
  obtain ⟨vp, hp⟩ := throw_population_world y.1 y.2
  have ha' : a.1 = { world with atmosphere := va } := ha
  have hy' : y.1 = { a.1 with hydrographics := vy } := hy
  have hp' : p.1 = { y.1 with population := vp } := hp
  refine ⟨?_, ?_, ?_, ?_, ?_, ?_, ?_, ?_⟩
  · rw [hp', hy', ha']
  · rw [hp', hy', ha']
  · rw [hp', hy', ha']
  · rw [hp', hy', ha']
  · rw [hp', hy', ha']
  · rw [ha']
  · rw [hp', hy']
  · rw [hp']

/-- The fields of the state after the tech level throw, in terms of the state
after the population throw. -/
theorem fields_after_tech_level {world : vgr_world_t} {random : sf_random_t}
    {st : vgr_world_t × sf_random_t}
    (h : throw_tech_level
      (throw_law_level (throw_government world random).1 (throw_government world random).2).1
      (throw_law_level (throw_government world random).1 (throw_government world random).2).2
      = .ok st) :
    let g := throw_government world random
    let l := throw_law_level g.1 g.2
    st.1.starport = world.starport ∧ st.1.naval_base = world.naval_base ∧
    st.1.scout_base = world.scout_base ∧ st.1.gas_giant = world.gas_giant ∧
    st.1.size = world.size ∧ st.1.atmosphere = world.atmosphere ∧
    st.1.hydrographics = world.hydrographics ∧ st.1.population = world.population ∧
    g.1.population = world.population ∧ l.1.population = world.population ∧
    st.1.government = g.1.government ∧ l.1.government = g.1.government ∧
    st.1.law_level = l.1.law_level ∧ l.1.starport = world.starport ∧
    l.1.size = world.size ∧ l.1.atmosphere = world.atmosphere ∧
    l.1.hydrographics = world.hydrographics := by
  intro g l
  obtain ⟨vg, hg⟩ := throw_government_world world random
  obtain ⟨vl, hl⟩ := throw_law_level_world g.1 g.2
  obtain ⟨vt, ht⟩ := throw_tech_level_world h
  have hg' : g.1 = { world with government := vg } := hg
  have hl' : l.1 = { g.1 with law_level := vl } := hl
  have ht' : st.1 = { l.1 with tech_level := vt } := ht
  refine ⟨?_, ?_, ?_, ?_, ?_, ?_, ?_, ?_, ?_, ?_, ?_, ?_, ?_, ?_, ?_, ?_, ?_⟩
  · rw [ht', hl', hg']
  · rw [ht', hl', hg']
  · rw [ht', hl', hg']
  · rw [ht', hl', hg']
  · rw [ht', hl', hg']
  · rw [ht', hl', hg']
  · rw [ht', hl', hg']
  · rw [ht', hl', hg']
  · rw [hg']
  · rw [hl', hg']
  · rw [ht', hl']
  · rw [hl']
  · rw [ht']
  · rw [hl', hg']
  · rw [hl', hg']
  · rw [hl', hg']
  · rw [hl', hg']

theorem table_at_ok_bounds {α : Type} {which : Table} {table : List α} {index : Int}
    {value : α} (h : table_at which table index = .ok value) :
    0 ≤ index ∧ index < table.length := by
  unfold table_at at h
  split at h
  · cases h
  · split at h
    · rename_i hv
      have := (List.get?_eq_some.mp hv).1
      omega
    · cases h

theorem tech_level_starport_modifiers_eq (starport : Char) :
    (tech_level_starport_modifiers starport).sum = spec_starport_bonus starport := by
  unfold tech_level_starport_modifiers spec_starport_bonus
  by_cases hA : starport = 'A'
  · subst hA; rfl
  · by_cases hB : starport = 'B'
    · subst hB; rfl
    · by_cases hC : starport = 'C'
      · subst hC; rfl
      · by_cases hX : starport = 'X'
        · subst hX; rfl
        · rw [if_neg (Ne.symm hA), if_neg (Ne.symm hB), if_neg (Ne.symm hC),
            if_neg (Ne.symm hX), if_neg hA, if_neg hB, if_neg hC, if_neg hX]
          rfl

theorem scout_base_modifiers_eq (starport : Char) :
    (scout_base_modifiers starport).sum = spec_scout_base_modifier starport := by
  unfold scout_base_modifiers spec_scout_base_modifier
  by_cases hC : starport = 'C'
  · subst hC; rfl
  · by_cases hB : starport = 'B'
    · subst hB; rfl
    · by_cases hA : starport = 'A'
      · subst hA; rfl
      · rw [if_neg (Ne.symm hC), if_neg (Ne.symm hB), if_neg (Ne.symm hA),
          if_neg hC, if_neg hB, if_neg hA]
        rfl

theorem scout_base_table_true_iff {index : Int} {value : Bool}
    (h : table_at .scout_base_table scout_base_table index = .ok value) :
    value = true ↔ 7 ≤ index := by
  have hb := table_at_ok_bounds h
  simp only [scout_base_table, List.length_cons, List.length_nil] at hb
  obtain ⟨h0, h13⟩ := hb
  have h13 : index ≤ 12 := by omega
  interval_cases index <;> (obtain rfl := Except.ok.inj h; decide)

/-- The flags of the state after the size throw, in terms of the state after
the scout base stage. -/
theorem flags_after_size {st3 st4 : vgr_world_t × sf_random_t}
    (h4 : throw_gas_giant st3.1 st3.2 = .ok st4) :
    (throw_size st4.1 st4.2).1.starport = st3.1.starport ∧
    (throw_size st4.1 st4.2).1.naval_base = st3.1.naval_base ∧
    (throw_size st4.1 st4.2).1.scout_base = st3.1.scout_base := by
  obtain ⟨gg, -, rfl⟩ := throw_gas_giant_ok h4
  exact ⟨rfl, rfl, rfl⟩

/-! ## The draws each stage uses -/

theorem same_draws_refl (count : Nat) (random : sf_random_t) :
    same_draws count random random :=
  fun _ _ => rfl

theorem same_draws_of_le {count more : Nat} {random other : sf_random_t}
    (hle : count ≤ more) (h : same_draws more random other) :
    same_draws count random other :=
  fun i hi => h i (Nat.lt_of_lt_of_le hi hle)

theorem shift_shift {random r1 r2 : sf_random_t} {a b : Nat}
    (h1 : r1 = fun n => random (n + a)) (h2 : r2 = fun n => r1 (n + b)) :
    r2 = fun n => random (n + (a + b)) := by
  subst h1 h2
  funext n
  show random (n + b + a) = random (n + (a + b))
  congr 1
  omega

/-- Running a stage after a computation: the draws used add up. -/
theorem consumes_bind {f : sf_random_t → Except Fault (vgr_world_t × sf_random_t)}
    (g : vgr_world_t → sf_random_t → Except Fault (vgr_world_t × sf_random_t))
    {random : sf_random_t} {k1 k2 : Nat} {st1 : vgr_world_t × sf_random_t}
    {world : vgr_world_t}
    (hf : consumes f random k1 st1.1) (h1 : st1.2 = fun n => random (n + k1))
    (hg : consumes (g st1.1) st1.2 k2 world) :
    consumes (fun r => f r >>= fun st => g st.1 st.2) random (k1 + k2) world := by
  intro other hother
  have e1 := hf other (same_draws_of_le (Nat.le_add_right k1 k2) hother)
  have e2 := hg (fun n => other (n + k1)) (by
    intro i hi
    rw [h1]
    exact hother (i + k1) (by omega))
  simp only [e1, bind, Except.bind]
  rw [e2]
  congr 2
  funext n
  show other (n + k2 + k1) = other (n + (k1 + k2))
  congr 1
  omega

theorem throw_starport_consumes {world : vgr_world_t} {random : sf_random_t}
    {st : vgr_world_t × sf_random_t} (h : throw_starport world random = .ok st) :
    (st.2 = fun n => random (n + 2)) ∧ consumes (throw_starport world) random 2 st.1 := by
  obtain ⟨v, hv, rfl⟩ := throw_starport_ok h
  refine ⟨rfl, fun other hother => ?_⟩
  have e0 := hother 0 (by omega)
  have e1 := hother 1 (by omega)
  simp only [throw_starport, vgr_dice_throw_two_total, vgr_dice_throw_two_random,
    List.sum_nil, add_zero, e0, e1, hv]
  rfl

theorem throw_gas_giant_consumes {world : vgr_world_t} {random : sf_random_t}
    {st : vgr_world_t × sf_random_t} (h : throw_gas_giant world random = .ok st) :
    (st.2 = fun n => random (n + 2)) ∧ consumes (throw_gas_giant world) random 2 st.1 := by
  obtain ⟨v, hv, rfl⟩ := throw_gas_giant_ok h
  refine ⟨rfl, fun other hother => ?_⟩
  have e0 := hother 0 (by omega)
  have e1 := hother 1 (by omega)
  simp only [throw_gas_giant, vgr_dice_throw_two_total, vgr_dice_throw_two_random,
    List.sum_nil, add_zero, e0, e1, hv]
  rfl

theorem throw_naval_base_consumes {world : vgr_world_t} {random : sf_random_t}
    {st : vgr_world_t × sf_random_t} (h : throw_naval_base world random = .ok st) :
    (st.2 = fun n =>
        random (n + (if 'A' = world.starport ∨ 'B' = world.starport then 2 else 0))) ∧
      consumes (throw_naval_base world) random
        (if 'A' = world.starport ∨ 'B' = world.starport then 2 else 0) st.1 := by
  rcases throw_naval_base_ok h with ⟨hab, v, hv, rfl⟩ | ⟨hab, rfl⟩
  · rw [if_pos hab]
    refine ⟨rfl, fun other hother => ?_⟩
    have e0 := hother 0 (by omega)
    have e1 := hother 1 (by omega)
    simp only [throw_naval_base, if_pos hab, vgr_dice_throw_two_total,
      vgr_dice_throw_two_random, List.sum_nil, add_zero, e0, e1, hv]
    rfl
  · rw [if_neg hab]
    refine ⟨rfl, fun other _ => ?_⟩
    rw [throw_naval_base_skip other hab]
    rfl

theorem throw_scout_base_consumes {world : vgr_world_t} {random : sf_random_t}
    {st : vgr_world_t × sf_random_t} (h : throw_scout_base world random = .ok st) :
    (st.2 = fun n =>
        random (n + (if 'E' ≠ world.starport ∧ 'X' ≠ world.starport then 2 else 0))) ∧
      consumes (throw_scout_base world) random
        (if 'E' ≠ world.starport ∧ 'X' ≠ world.starport then 2 else 0) st.1 := by
  rcases throw_scout_base_ok h with ⟨hex, v, hv, rfl⟩ | ⟨hex, rfl⟩
  · rw [if_pos hex]
    refine ⟨rfl, fun other hother => ?_⟩
    have e0 := hother 0 (by omega)
    have e1 := hother 1 (by omega)
    simp only [throw_scout_base, if_pos hex, vgr_dice_throw_two_total,
      vgr_dice_throw_two_random, e0, e1, hv]
    rfl
  · rw [if_neg hex]
    refine ⟨rfl, fun other _ => ?_⟩
    simp only [throw_scout_base, if_neg hex]
    rfl

theorem throw_tech_level_consumes {world : vgr_world_t} {random : sf_random_t}
    {st : vgr_world_t × sf_random_t} (h : throw_tech_level world random = .ok st) :
    (st.2 = fun n => random (n + (if world.population ≠ 0 then 1 else 0))) ∧
      consumes (throw_tech_level world) random
        (if world.population ≠ 0 then 1 else 0) st.1 := by
  rcases throw_tech_level_ok h with ⟨hp, m, hm, rfl⟩ | ⟨hp, rfl⟩
  · rw [if_pos hp]
    refine ⟨rfl, fun other hother => ?_⟩
    have e0 := hother 0 (by omega)
    simp only [throw_tech_level, if_pos hp, vgr_dice_throw_one_total,
      vgr_dice_throw_one_random, e0, hm]
    rfl
  · rw [if_neg (not_not.mpr hp)]
    refine ⟨rfl, fun other _ => ?_⟩
    rw [throw_tech_level_skip other hp]
    rfl

theorem throw_size_consumes (world : vgr_world_t) (random : sf_random_t) :
    ((throw_size world random).2 = fun n => random (n + 2)) ∧
      consumes (fun r => pure (throw_size world r)) random 2 (throw_size world random).1 := by
  refine ⟨rfl, fun other hother => ?_⟩
  have e0 := hother 0 (by omega)
  have e1 := hother 1 (by omega)
  simp only [throw_size, vgr_dice_throw_two_total, vgr_dice_throw_two_random, e0, e1]
  rfl

theorem throw_population_consumes (world : vgr_world_t) (random : sf_random_t) :
    ((throw_population world random).2 = fun n => random (n + 2)) ∧
      consumes (fun r => pure (throw_population world r)) random 2
        (throw_population world random).1 := by
  refine ⟨rfl, fun other hother => ?_⟩
  have e0 := hother 0 (by omega)
  have e1 := hother 1 (by omega)
  simp only [throw_population, vgr_dice_throw_two_total, vgr_dice_throw_two_random, e0, e1]
  rfl

theorem throw_atmosphere_consumes (world : vgr_world_t) (random : sf_random_t) :
    ((throw_atmosphere world random).2
        = fun n => random (n + (if world.size ≠ 0 then 2 else 0))) ∧
      consumes (fun r => pure (throw_atmosphere world r)) random
        (if world.size ≠ 0 then 2 else 0) (throw_atmosphere world random).1 := by
  by_cases hs : 0 = world.size
  · have hs' : ¬ world.size ≠ 0 := fun hne => hne hs.symm
    rw [if_neg hs']
    simp only [throw_atmosphere, if_pos hs]
    exact ⟨rfl, fun other _ => rfl⟩
  · have hs' : world.size ≠ 0 := fun he => hs he.symm
    rw [if_pos hs']
    simp only [throw_atmosphere, if_neg hs]
    refine ⟨rfl, fun other hother => ?_⟩
    have e0 := hother 0 (by omega)
    have e1 := hother 1 (by omega)
    simp only [vgr_dice_throw_two_total, vgr_dice_throw_two_random, e0, e1]
    rfl

theorem throw_hydrographics_consumes (world : vgr_world_t) (random : sf_random_t) :
    ((throw_hydrographics world random).2
        = fun n => random (n + (if world.size ≠ 0 then 2 else 0))) ∧
      consumes (fun r => pure (throw_hydrographics world r)) random
        (if world.size ≠ 0 then 2 else 0) (throw_hydrographics world random).1 := by
  by_cases hs : 0 = world.size
  · have hs' : ¬ world.size ≠ 0 := fun hne => hne hs.symm
    rw [if_neg hs']
    simp only [throw_hydrographics, if_pos hs]
    exact ⟨rfl, fun other _ => rfl⟩
  · have hs' : world.size ≠ 0 := fun he => hs he.symm
    rw [if_pos hs']
    simp only [throw_hydrographics, if_neg hs]
    refine ⟨rfl, fun other hother => ?_⟩
    have e0 := hother 0 (by omega)
    have e1 := hother 1 (by omega)
    simp only [vgr_dice_throw_two_total, vgr_dice_throw_two_random, e0, e1]
    rfl

theorem throw_government_consumes (world : vgr_world_t) (random : sf_random_t) :
    ((throw_government world random).2
        = fun n => random (n + (if world.population ≠ 0 then 2 else 0))) ∧
      consumes (fun r => pure (throw_government world r)) random
        (if world.population ≠ 0 then 2 else 0) (throw_government world random).1 := by
  by_cases hp : 0 = world.population
  · have hp' : ¬ world.population ≠ 0 := fun hne => hne hp.symm
    rw [if_neg hp']
    simp only [throw_government, if_pos hp]
    exact ⟨rfl, fun other _ => rfl⟩
  · have hp' : world.population ≠ 0 := fun he => hp he.symm
    rw [if_pos hp']
    simp only [throw_government, if_neg hp]
    refine ⟨rfl, fun other hother => ?_⟩
    have e0 := hother 0 (by omega)
    have e1 := hother 1 (by omega)
    simp only [vgr_dice_throw_two_total, vgr_dice_throw_two_random, e0, e1]
    rfl

theorem throw_law_level_consumes (world : vgr_world_t) (random : sf_random_t) :
    ((throw_law_level world random).2
        = fun n => random (n + (if world.population ≠ 0 then 2 else 0))) ∧
      consumes (fun r => pure (throw_law_level world r)) random
        (if world.population ≠ 0 then 2 else 0) (throw_law_level world random).1 := by
  by_cases hp : 0 = world.population
  · have hp' : ¬ world.population ≠ 0 := fun hne => hne hp.symm
    rw [if_neg hp']
    simp only [throw_law_level, if_pos hp]
    exact ⟨rfl, fun other _ => rfl⟩
  · have hp' : world.population ≠ 0 := fun he => hp he.symm
    rw [if_pos hp']
    simp only [throw_law_level, if_neg hp]
    refine ⟨rfl, fun other hother => ?_⟩
    have e0 := hother 0 (by omega)
    have e1 := hother 1 (by omega)
    simp only [vgr_dice_throw_two_total, vgr_dice_throw_two_random, e0, e1]
    rfl

/-! ## The draws `vgr_world` uses -/

theorem vgr_world_to_size_chain (name : String) (hex_coordinate : vgr_hex_coordinate) :
    vgr_world_to_size name hex_coordinate = fun r =>
      (((throw_starport (sf_object_calloc name hex_coordinate) r
          >>= fun st => throw_naval_base st.1 st.2)
          >>= fun st => throw_scout_base st.1 st.2)
          >>= fun st => throw_gas_giant st.1 st.2)
          >>= fun st => pure (throw_size st.1 st.2) := by
  funext r
  simp only [vgr_world_to_size, vgr_world_to_starport, bind_assoc]

theorem vgr_world_to_population_chain (name : String) (hex_coordinate : vgr_hex_coordinate) :
    vgr_world_to_population name hex_coordinate = fun r =>
      ((vgr_world_to_size name hex_coordinate r
          >>= fun st => pure (throw_atmosphere st.1 st.2))
          >>= fun st => pure (throw_hydrographics st.1 st.2))
          >>= fun st => pure (throw_population st.1 st.2) := by
  funext r
  simp only [vgr_world_to_population, bind_assoc, pure_bind]

theorem vgr_world_chain (classify : vgr_world_t → List vgr_trade_classification)
    (name : String) (hex_coordinate : vgr_hex_coordinate) :
    vgr_world classify name hex_coordinate = fun r =>
      (((vgr_world_to_population name hex_coordinate r
          >>= fun st => pure (throw_government st.1 st.2))
          >>= fun st => pure (throw_law_level st.1 st.2))
          >>= fun st => throw_tech_level st.1 st.2)
          >>= fun st =>
            pure ({ st.1 with trade_classifications := classify st.1 }, st.2) := by
  funext r
  simp only [vgr_world, bind_assoc, pure_bind]

theorem vgr_world_to_size_consumes {name : String} {hex_coordinate : vgr_hex_coordinate}
    {random_in : sf_random_t} {st : vgr_world_t × sf_random_t}
    (h : vgr_world_to_size name hex_coordinate random_in = .ok st) :
    (st.2 = fun n => random_in (n + (6
        + (if 'A' = st.1.starport ∨ 'B' = st.1.starport then 2 else 0)
        + (if 'E' ≠ st.1.starport ∧ 'X' ≠ st.1.starport then 2 else 0)))) ∧
      consumes (vgr_world_to_size name hex_coordinate) random_in
        (6 + (if 'A' = st.1.starport ∨ 'B' = st.1.starport then 2 else 0)
           + (if 'E' ≠ st.1.starport ∧ 'X' ≠ st.1.starport then 2 else 0)) st.1 := by
  obtain ⟨st1, st2, st3, st4, h1, h2, h3, h4, rfl⟩ := vgr_world_to_size_ok h
  obtain ⟨r1, c1⟩ := throw_starport_consumes h1
  obtain ⟨r2, c2⟩ := throw_naval_base_consumes h2
  obtain ⟨r3, c3⟩ := throw_scout_base_consumes h3
  obtain ⟨r4, c4⟩ := throw_gas_giant_consumes h4
  obtain ⟨r5, c5⟩ := throw_size_consumes st4.1 st4.2
  obtain ⟨v2, hv2⟩ := throw_naval_base_world h2
  obtain ⟨v3, hv3⟩ := throw_scout_base_world h3
  have f5 := flags_after_size h4
  have p2 : st2.1.starport = st1.1.starport := by rw [hv2]
  have p3 : st3.1.starport = st2.1.starport := by rw [hv3]
  have p5 : (throw_size st4.1 st4.2).1.starport = st1.1.starport := by rw [f5.1, p3, p2]
  rw [p2] at r3 c3
  have s2 := shift_shift r1 r2
  have s3 := shift_shift s2 r3
  have s4 := shift_shift s3 r4
  have s5 := shift_shift s4 r5
  have d2 := consumes_bind throw_naval_base c1 r1 c2
  have d3 := consumes_bind throw_scout_base d2 s2 c3
  have d4 := consumes_bind throw_gas_giant d3 s3 c4
  have d5 := consumes_bind (fun w r => pure (throw_size w r)) d4 s4 c5
  rw [p5]
  have hk : 2 + (if 'A' = st1.1.starport ∨ 'B' = st1.1.starport then 2 else 0)
      + (if 'E' ≠ st1.1.starport ∧ 'X' ≠ st1.1.starport then 2 else 0) + 2 + 2
      = 6 + (if 'A' = st1.1.starport ∨ 'B' = st1.1.starport then 2 else 0)
        + (if 'E' ≠ st1.1.starport ∧ 'X' ≠ st1.1.starport then 2 else 0) := by omega
  rw [hk] at s5 d5
  refine ⟨s5, ?_⟩
  rw [vgr_world_to_size_chain]
  exact d5

theorem vgr_world_to_population_consumes {name : String}
    {hex_coordinate : vgr_hex_coordinate} {random_in : sf_random_t}
    {st : vgr_world_t × sf_random_t}
    (h : vgr_world_to_population name hex_coordinate random_in = .ok st) :
    (st.2 = fun n => random_in (n + (8
        + (if 'A' = st.1.starport ∨ 'B' = st.1.starport then 2 else 0)
        + (if 'E' ≠ st.1.starport ∧ 'X' ≠ st.1.starport then 2 else 0)
        + (if st.1.size ≠ 0 then 4 else 0)))) ∧
      consumes (vgr_world_to_population name hex_coordinate) random_in
        (8 + (if 'A' = st.1.starport ∨ 'B' = st.1.starport then 2 else 0)
           + (if 'E' ≠ st.1.starport ∧ 'X' ≠ st.1.starport then 2 else 0)
           + (if st.1.size ≠ 0 then 4 else 0)) st.1 := by
  obtain ⟨st5, h5, hst⟩ := vgr_world_to_population_ok h
  obtain ⟨s5, d5⟩ := vgr_world_to_size_consumes h5
  have f8 := fields_after_population st5.1 st5.2
  simp only at f8
  rw [← hst] at f8
  obtain ⟨r6, c6⟩ := throw_atmosphere_consumes st5.1 st5.2
  obtain ⟨r7, c7⟩ := throw_hydrographics_consumes (throw_atmosphere st5.1 st5.2).1
    (throw_atmosphere st5.1 st5.2).2
  obtain ⟨r8, c8⟩ := throw_population_consumes
    (throw_hydrographics (throw_atmosphere st5.1 st5.2).1 (throw_atmosphere st5.1 st5.2).2).1
    (throw_hydrographics (throw_atmosphere st5.1 st5.2).1 (throw_atmosphere st5.1 st5.2).2).2
  rw [f8.2.2.2.2.2.1] at r7 c7
  have s6 := shift_shift s5 r6
  have s7 := shift_shift s6 r7
  have s8 := shift_shift s7 r8
  have d6 := consumes_bind (fun w r => pure (throw_atmosphere w r)) d5 s5 c6
  have d7 := consumes_bind (fun w r => pure (throw_hydrographics w r)) d6 s6 c7
  have d8 := consumes_bind (fun w r => pure (throw_population w r)) d7 s7 c8
  rw [← hst] at s8 d8
  rw [f8.1, f8.2.2.2.2.1]
  have hk : 6 + (if 'A' = st5.1.starport ∨ 'B' = st5.1.starport then 2 else 0)
      + (if 'E' ≠ st5.1.starport ∧ 'X' ≠ st5.1.starport then 2 else 0)
      + (if st5.1.size ≠ 0 then 2 else 0) + (if st5.1.size ≠ 0 then 2 else 0) + 2
      = 8 + (if 'A' = st5.1.starport ∨ 'B' = st5.1.starport then 2 else 0)
        + (if 'E' ≠ st5.1.starport ∧ 'X' ≠ st5.1.starport then 2 else 0)
        + (if st5.1.size ≠ 0 then 4 else 0) := by
    split_ifs <;> omega
  rw [hk] at s8 d8
  refine ⟨s8, ?_⟩
  rw [vgr_world_to_population_chain]
  exact d8

theorem draws_consumed_eq (world : vgr_world_t) :
    8 + (if 'A' = world.starport ∨ 'B' = world.starport then 2 else 0)
      + (if 'E' ≠ world.starport ∧ 'X' ≠ world.starport then 2 else 0)
      + (if world.size ≠ 0 then 4 else 0)
      + (if world.population ≠ 0 then 2 else 0)
      + (if world.population ≠ 0 then 2 else 0)
      + (if world.population ≠ 0 then 1 else 0) + 0
      = draws_consumed world := by
  unfold draws_consumed
  have e1 : ('A' = world.starport ∨ 'B' = world.starport)
      ↔ (world.starport = 'A' ∨ world.starport = 'B') := by
    exact ⟨fun h => h.imp Eq.symm Eq.symm, fun h => h.imp Eq.symm Eq.symm⟩
  have e2 : ('E' ≠ world.starport ∧ 'X' ≠ world.starport)
      ↔ (world.starport ≠ 'E' ∧ world.starport ≠ 'X') :=
    ⟨fun h => ⟨Ne.symm h.1, Ne.symm h.2⟩, fun h => ⟨Ne.symm h.1, Ne.symm h.2⟩⟩
  simp only [e1, e2]
  split_ifs <;> omega

theorem vgr_world_consumes {classify : vgr_world_t → List vgr_trade_classification}
    {name : String} {hex_coordinate : vgr_hex_coordinate} {random_in random_out : sf_random_t}
    {world : vgr_world_t}
    (h : vgr_world classify name hex_coordinate random_in = .ok (world, random_out)) :
    (random_out = fun n => random_in (n + draws_consumed world)) ∧
      consumes (vgr_world classify name hex_coordinate) random_in (draws_consumed world)
        world := by
  obtain ⟨st8, st11, h8, h11, hw, hr⟩ := vgr_world_ok h
  obtain ⟨s8, d8⟩ := vgr_world_to_population_consumes h8
  have f11 := fields_after_tech_level h11
  simp only at f11
  obtain ⟨fport, -, -, -, fsize, -, -, fpop, gpop, lpop, -, -, -, -, -, -, -⟩ := f11
  obtain ⟨r9, c9⟩ := throw_government_consumes st8.1 st8.2
  obtain ⟨r10, c10⟩ := throw_law_level_consumes (throw_government st8.1 st8.2).1
    (throw_government st8.1 st8.2).2
  obtain ⟨r11, c11⟩ := throw_tech_level_consumes h11
  have c12 : consumes
      (fun r => pure
        (({ st11.1 with trade_classifications := classify st11.1 } : vgr_world_t), r))
      st11.2 0 { st11.1 with trade_classifications := classify st11.1 } :=
    fun other _ => rfl
  rw [gpop] at r10 c10
  rw [lpop] at r11 c11
  have s9 := shift_shift s8 r9
  have s10 := shift_shift s9 r10
  have s11 := shift_shift s10 r11
  have d9 := consumes_bind (fun w r => pure (throw_government w r)) d8 s8 c9
  have d10 := consumes_bind (fun w r => pure (throw_law_level w r)) d9 s9 c10
  have d11 := consumes_bind throw_tech_level d10 s10 c11
  have d12 := consumes_bind
    (fun w r => pure (({ w with trade_classifications := classify w } : vgr_world_t), r))
    d11 s11 c12
  have hport : world.starport = st8.1.starport := by rw [hw]; exact fport
  have hsize : world.size = st8.1.size := by rw [hw]; exact fsize
  have hpop : world.population = st8.1.population := by rw [hw]; exact fpop
  have hk := draws_consumed_eq world
  rw [hport, hsize, hpop] at hk
  rw [hk] at d12
  have hk' : 8 + (if 'A' = st8.1.starport ∨ 'B' = st8.1.starport then 2 else 0)
      + (if 'E' ≠ st8.1.starport ∧ 'X' ≠ st8.1.starport then 2 else 0)
      + (if st8.1.size ≠ 0 then 4 else 0)
      + (if st8.1.population ≠ 0 then 2 else 0)
      + (if st8.1.population ≠ 0 then 2 else 0)
      + (if st8.1.population ≠ 0 then 1 else 0) = draws_consumed world := by
    rw [← hk]
    rfl
  rw [hk'] at s11
  refine ⟨by rw [hr]; exact s11, ?_⟩
  rw [vgr_world_chain]
  rw [hw] at d12 ⊢
  exact d12

/-! ## The join of a list that is not empty, and the parts of the line -/

theorem spec_join_with_suffix_length (suffix : String) (strings : List String) :
    (spec_join_with_suffix suffix strings).length
      = (strings.map String.length).sum + strings.length * suffix.length := by
  induction strings with
  | nil => simp [spec_join_with_suffix]
  | cons s rest ih =>
    simp only [spec_join_with_suffix, String.length_append, ih, List.map_cons, List.sum_cons,
      List.length_cons, Nat.add_mul, Nat.one_mul]
    omega

theorem joined_size_from (suffix : String) (strings : List String) (size : Nat) :
    strings.foldl (fun size s => size + s.length + suffix.length) size
      = size + ((strings.map String.length).sum + strings.length * suffix.length) := by
  induction strings generalizing size with
  | nil => simp
  | cons s rest ih =>
    simp only [List.foldl_cons, ih, List.map_cons, List.sum_cons, List.length_cons,
      Nat.add_mul, Nat.one_mul]
    omega

/-- For a list that is not empty, `sj_string_alloc_join_strings_with_suffix`
returns each string followed by the suffix, in list order; the length is the sum
of the string lengths plus count times the suffix length, and the buffer asked
of `sj_malloc` holds it with its terminating NUL. -/
theorem join_of_ne_nil_length (suffix : String) (strings : List String)
    (h : strings ≠ []) :
    sj_string_alloc_join_strings_with_suffix strings suffix
      = some (spec_join_with_suffix suffix strings) ∧
    (spec_join_with_suffix suffix strings).length
      = (strings.map String.length).sum + strings.length * suffix.length ∧
    joined_size strings suffix = (spec_join_with_suffix suffix strings).length + 1 := by
  refine ⟨join_of_ne_nil suffix strings h, spec_join_with_suffix_length suffix strings, ?_⟩
  rw [spec_join_with_suffix_length]
  unfold joined_size
  rw [joined_size_from]
  omega

theorem right_justify_of_le (width : Nat) (text : String) (h : width ≤ text.length) :
    right_justify width text = text := by
  simp [right_justify, Nat.sub_eq_zero_of_le h]

theorem format_line_eq (fmt : vgr_hex_coordinate → String) (world : vgr_world_t)
    (classifications : String) (hhex : 4 ≤ (fmt world.hex_coordinate).length) :
    line_before_classifications fmt world ++ left_justify 42 classifications
        ++ gas_giant_marker world
      = format_line world.name (fmt world.hex_coordinate) world.starport
          (attribute_digits world) (hex_digit_char world.tech_level) (base_code world)
          classifications world.gas_giant := by
  apply String.ext
  simp only [line_before_classifications, format_line, gas_giant_marker, attribute_digits,
    right_justify_of_le 4 _ hhex, String.data_append, List.append_assoc, List.cons_append,
    List.nil_append, Bool.if_true_left]

/-! ## The claims -/

/-- C1, failing on the code: on the stream whose every die draw is 1 (all draws
in `[1, 6]`) the starport throw gives index 2, starport 'A'; the scout base
throw then totals `1 + 1 - 3 = -1` and `scout_base_table` is read at index -1,
outside its thirteen entries. -/
theorem vgr_world_scout_base_index_out_of_range
    (classify : vgr_world_t → List vgr_trade_classification) (name : String)
    (hex_coordinate : vgr_hex_coordinate) :
    draws_in_range 6 (fun _ => 1) ∧
      vgr_world classify name hex_coordinate (fun _ => 1)
        = .error (.index_out_of_range .scout_base_table (-1)) :=
  ⟨draws_in_range_const _ (by decide) (by decide), rfl⟩

/-- C2, failing on the code: on the stream whose every die draw is 6 (all draws
in `[1, 6]`) size is 10 and atmosphere is `12 - 7 + 10 = 15`; population is 10,
so the tech level is derived and `tech_level_atmosphere_table`, which has the
fifteen entries 0..14, is read at index 15. -/
theorem vgr_world_tech_level_atmosphere_index_out_of_range
    (classify : vgr_world_t → List vgr_trade_classification) (name : String)
    (hex_coordinate : vgr_hex_coordinate) :
    draws_in_range 6 (fun _ => 6) ∧
      vgr_world classify name hex_coordinate (fun _ => 6)
        = .error (.index_out_of_range .tech_level_atmosphere_table 15) :=
  ⟨draws_in_range_const _ (by decide) (by decide), rfl⟩

/-- C3: for every input stream, if the world `vgr_world` returns has population
0, then its government, law level and tech level are 0, and the government, law
level and tech level stages leave both the world and the stream as the
population throw left them: no die is drawn, and the stream stored in
`random_out` is the stream left after the population throw. -/
theorem vgr_world_population_zero
    (classify : vgr_world_t → List vgr_trade_classification) (name : String)
    (hex_coordinate : vgr_hex_coordinate) (random_in random_out : sf_random_t)
    (world : vgr_world_t)
    (h : vgr_world classify name hex_coordinate random_in = .ok (world, random_out))
    (hp : world.population = 0) :
    world.government = 0 ∧ world.law_level = 0 ∧ world.tech_level = 0 ∧
      ∃ st, vgr_world_to_population name hex_coordinate random_in = .ok st ∧
        st.1.population = 0 ∧
        throw_government st.1 st.2 = st ∧
        throw_law_level st.1 st.2 = st ∧
        throw_tech_level st.1 st.2 = .ok st ∧
        random_out = st.2 := by
  obtain ⟨st8, st11, h8, h11, rfl, rfl⟩ := vgr_world_ok h
  obtain ⟨st5, b, c, d, h5, hw8⟩ := vgr_world_to_population_world h8
  obtain ⟨a1, a2, a3, a4, a5, hw5⟩ := vgr_world_to_size_world h5
  have hg8 : st8.1.government = 0 := by rw [hw8, hw5]; rfl
  have hl8 : st8.1.law_level = 0 := by rw [hw8, hw5]; rfl
  have ht8 : st8.1.tech_level = 0 := by rw [hw8, hw5]; rfl
  have hp8 : st8.1.population = 0 := by
    obtain ⟨e, he⟩ := throw_government_world st8.1 st8.2
    generalize throw_government st8.1 st8.2 = s9 at he h11
    obtain ⟨f, hf⟩ := throw_law_level_world s9.1 s9.2
    generalize throw_law_level s9.1 s9.2 = s10 at hf h11
    obtain ⟨g, hg⟩ := throw_tech_level_world h11
    have : st11.1.population = st8.1.population := by rw [hg, hf, he]
    rw [← this]
    exact hp
  have e9 : throw_government st8.1 st8.2 = st8 := throw_government_skip st8.2 hp8 hg8
  have e10 : throw_law_level st8.1 st8.2 = st8 := throw_law_level_skip st8.2 hp8 hl8
  have e11 : throw_tech_level st8.1 st8.2 = .ok st8 := throw_tech_level_skip st8.2 hp8
  rw [e9, e10, e11] at h11
  cases h11
  exact ⟨hg8, hl8, ht8, st8, h8, hp8, e9, e10, e11, rfl⟩

/-- A stream on which the population throw is `1 + 1 - 2 = 0`. -/
theorem vgr_world_population_zero_witness :
    vgr_world (fun _ => []) "Regina" ⟨1, 10⟩ (stream_of [3, 3, 3, 3, 3, 3, 3, 3, 3, 3, 3, 3, 3, 3, 1, 1] 3)
      = .ok ({ sf_object_calloc "Regina" ⟨1, 10⟩ with
                starport := 'B', gas_giant := true, size := 4, atmosphere := 3,
                hydrographics := 2 }, fun _ => 3) ∧
    ∃ st, vgr_world_to_population "Regina" ⟨1, 10⟩
        (stream_of [3, 3, 3, 3, 3, 3, 3, 3, 3, 3, 3, 3, 3, 3, 1, 1] 3) = .ok st ∧
      (fun _ => 3) = st.2 :=
  ⟨rfl,
    let ⟨st, h8, _, _, _, _, hr⟩ :=
      (vgr_world_population_zero (fun _ => []) "Regina" ⟨1, 10⟩
        (stream_of [3, 3, 3, 3, 3, 3, 3, 3, 3, 3, 3, 3, 3, 3, 1, 1] 3) (fun _ => 3) _ rfl rfl).2.2.2
    ⟨st, h8, hr⟩⟩

/-- C4: for every input stream, if the world `vgr_world` returns has size 0, then
its atmosphere and hydrographics are 0, and the atmosphere and hydrographics
stages leave both the world and the stream as the size throw left them: no die
is drawn, and the population is thrown from the stream left directly after the
size throw. -/
theorem vgr_world_size_zero
    (classify : vgr_world_t → List vgr_trade_classification) (name : String)
    (hex_coordinate : vgr_hex_coordinate) (random_in random_out : sf_random_t)
    (world : vgr_world_t)
    (h : vgr_world classify name hex_coordinate random_in = .ok (world, random_out))
    (hs : world.size = 0) :
    world.atmosphere = 0 ∧ world.hydrographics = 0 ∧
      ∃ st, vgr_world_to_size name hex_coordinate random_in = .ok st ∧
        st.1.size = 0 ∧
        throw_atmosphere st.1 st.2 = st ∧
        throw_hydrographics st.1 st.2 = st ∧
        vgr_world_to_population name hex_coordinate random_in
          = .ok (throw_population st.1 st.2) ∧
        world.population = vgr_dice_throw_total (vgr_dice_throw 2 6 [-2] st.2).1 := by
  obtain ⟨st8, e, f, g, t, h8, rfl⟩ := vgr_world_world h
  obtain ⟨st5, h5, rfl⟩ := vgr_world_to_population_ok h8
  obtain ⟨a1, a2, a3, a4, a5, hw5⟩ := vgr_world_to_size_world h5
  have ha5 : st5.1.atmosphere = 0 := by rw [hw5]; rfl
  have hh5 : st5.1.hydrographics = 0 := by rw [hw5]; rfl
  have hs5 : st5.1.size = 0 := by
    obtain ⟨b, hb⟩ := throw_atmosphere_world st5.1 st5.2
    generalize throw_atmosphere st5.1 st5.2 = s6 at hb hs
    obtain ⟨c, hc⟩ := throw_hydrographics_world s6.1 s6.2
    generalize throw_hydrographics s6.1 s6.2 = s7 at hc hs
    obtain ⟨d, hd⟩ := throw_population_world s7.1 s7.2
    generalize throw_population s7.1 s7.2 = s8 at hd hs
    have : s8.1.size = st5.1.size := by rw [hd, hc, hb]
    rw [← this]
    exact hs
  have e6 : throw_atmosphere st5.1 st5.2 = st5 := throw_atmosphere_skip st5.2 hs5 ha5
  have e7 : throw_hydrographics st5.1 st5.2 = st5 := throw_hydrographics_skip st5.2 hs5 hh5
  rw [e6, e7] at h8 ⊢
  exact ⟨ha5, hh5, st5, h5, hs5, e6, e7, h8, rfl⟩

/-- A stream on which the size throw is `1 + 1 - 2 = 0`. -/
theorem vgr_world_size_zero_witness :
    vgr_world (fun _ => []) "Regina" ⟨1, 10⟩ (stream_of [3, 3, 3, 3, 3, 3, 3, 3, 1, 1, 2, 6] 3)
      = .ok ({ sf_object_calloc "Regina" ⟨1, 10⟩ with
                starport := 'B', gas_giant := true, population := 6, government := 5,
                law_level := 4, tech_level := 11 }, fun _ => 3) ∧
    ∃ st, vgr_world_to_size "Regina" ⟨1, 10⟩
        (stream_of [3, 3, 3, 3, 3, 3, 3, 3, 1, 1, 2, 6] 3) = .ok st ∧
      (6 : Int) = vgr_dice_throw_total (vgr_dice_throw 2 6 [-2] st.2).1 := by
  have h : vgr_world (fun _ => []) "Regina" ⟨1, 10⟩
      (stream_of [3, 3, 3, 3, 3, 3, 3, 3, 1, 1, 2, 6] 3)
      = .ok ({ sf_object_calloc "Regina" ⟨1, 10⟩ with
                starport := 'B', gas_giant := true, population := 6, government := 5,
                law_level := 4, tech_level := 11 }, fun _ => 3) := rfl
  obtain ⟨-, -, st, h5, -, -, -, -, hp⟩ := vgr_world_size_zero _ _ _ _ _ _ h rfl
  exact ⟨h, st, h5, hp⟩

/-- C5: for every input stream, in the world `vgr_world` returns: if naval base
is true then the starport is 'A' or 'B'; and if the starport is 'E' or 'X' then
scout base is false, the naval base and scout base stages leave both the world
and the stream as the starport throw left them (no throw is consumed), and the
gas giant flag is the table entry for the throw made from the stream left
directly after the starport throw. -/
theorem vgr_world_bases
    (classify : vgr_world_t → List vgr_trade_classification) (name : String)
    (hex_coordinate : vgr_hex_coordinate) (random_in random_out : sf_random_t)
    (world : vgr_world_t)
    (h : vgr_world classify name hex_coordinate random_in = .ok (world, random_out)) :
    (world.naval_base = true → world.starport = 'A' ∨ world.starport = 'B') ∧
    (world.starport = 'E' ∨ world.starport = 'X' →
      world.scout_base = false ∧
      ∃ st, vgr_world_to_starport name hex_coordinate random_in = .ok st ∧
        st.1.starport = world.starport ∧
        throw_naval_base st.1 st.2 = .ok st ∧
        throw_scout_base st.1 st.2 = .ok st ∧
        table_at .gas_giant_table gas_giant_table
          (vgr_dice_throw_total (vgr_dice_throw 2 6 [] st.2).1) = .ok world.gas_giant) := by
  obtain ⟨st8, e, f, g, t, h8, rfl⟩ := vgr_world_world h
  obtain ⟨st5, b, c, d, h5, hw8⟩ := vgr_world_to_population_world h8
  obtain ⟨st1, st2, st3, st4, h1, h2, h3, h4, rfl⟩ := vgr_world_to_size_ok h5
  obtain ⟨a, ha⟩ := vgr_world_to_starport_world h1
  obtain ⟨gg, hgg, rfl⟩ := throw_gas_giant_ok h4
  obtain ⟨v3, hv3⟩ := throw_scout_base_world h3
  obtain ⟨v2, hv2⟩ := throw_naval_base_world h2
  have hn1 : st1.1.naval_base = false := by rw [ha]; rfl
  have hs1 : st1.1.scout_base = false := by rw [ha]; rfl
  have hport2 : st2.1.starport = st1.1.starport := by rw [hv2]
  have hport : st8.1.starport = st1.1.starport := by
    rw [hw8]
    show st3.1.starport = _
    rw [hv3, hv2]
  have hnaval : st8.1.naval_base = st2.1.naval_base := by
    rw [hw8]
    show st3.1.naval_base = _
    rw [hv3]
  have hscout : st8.1.scout_base = st3.1.scout_base := by
    rw [hw8]
    rfl
  have hgas : st8.1.gas_giant = gg := by
    rw [hw8]
    rfl
  refine ⟨?_, ?_⟩
  · intro hnb
    change st8.1.naval_base = true at hnb
    change st8.1.starport = 'A' ∨ st8.1.starport = 'B'
    rw [hport]
    rw [hnaval] at hnb
    rcases throw_naval_base_ok h2 with ⟨hab, -, -, -⟩ | ⟨-, rfl⟩
    · rcases hab with hab | hab
      · exact Or.inl hab.symm
      · exact Or.inr hab.symm
    · rw [hn1] at hnb
      cases hnb
  · intro hex
    change st8.1.starport = 'E' ∨ st8.1.starport = 'X' at hex
    change st8.1.scout_base = false ∧ ∃ st : vgr_world_t × sf_random_t, _ ∧ st.1.starport = st8.1.starport ∧ _ ∧ _ ∧
      table_at .gas_giant_table gas_giant_table _ = .ok st8.1.gas_giant
    rw [hport] at hex
    have hnab : ¬ ('A' = st1.1.starport ∨ 'B' = st1.1.starport) := by
      rcases hex with hex | hex <;> rw [hex] <;> decide
    have e2 : throw_naval_base st1.1 st1.2 = .ok st1 := throw_naval_base_skip st1.2 hnab
    have e3 : throw_scout_base st1.1 st1.2 = .ok st1 := throw_scout_base_skip st1.2 hex
    rw [e2] at h2
    cases h2
    rw [e3] at h3
    cases h3
    rw [hscout, hgas, hport]
    refine ⟨hs1, st1, h1, rfl, e2, e3, ?_⟩
    simpa using hgg

/-- A stream on which the starport throw is `6 + 6 = 12`, starport 'X'. -/
theorem vgr_world_bases_witness :
    vgr_world (fun _ => []) "Regina" ⟨1, 10⟩ (stream_of [6, 6, 1, 2] 3)
      = .ok ({ sf_object_calloc "Regina" ⟨1, 10⟩ with
                starport := 'X', gas_giant := true, size := 4, atmosphere := 3,
                hydrographics := 2, population := 4, government := 3, law_level := 2,
                tech_level := 2 }, fun _ => 3) ∧
    ((false = true → 'X' = 'A' ∨ 'X' = 'B') ∧
     ('X' = 'E' ∨ 'X' = 'X' →
      false = false ∧
      ∃ st, vgr_world_to_starport "Regina" ⟨1, 10⟩ (stream_of [6, 6, 1, 2] 3) = .ok st ∧
        st.1.starport = 'X' ∧
        throw_naval_base st.1 st.2 = .ok st ∧
        throw_scout_base st.1 st.2 = .ok st ∧
        table_at .gas_giant_table gas_giant_table
          (vgr_dice_throw_total (vgr_dice_throw 2 6 [] st.2).1) = .ok true)) :=
  ⟨rfl, vgr_world_bases (fun _ => []) "Regina" ⟨1, 10⟩ (stream_of [6, 6, 1, 2] 3)
    (fun _ => 3) _ rfl⟩

/-- C6: for every stream whose die draws all lie in `[1, 6]`, the world
`vgr_world` returns has size, population and hydrographics in 0..10, atmosphere
and government in 0..15, and a tech level of at least 0. -/
theorem vgr_world_attribute_ranges
    (classify : vgr_world_t → List vgr_trade_classification) (name : String)
    (hex_coordinate : vgr_hex_coordinate) (random_in random_out : sf_random_t)
    (world : vgr_world_t)
    (hr : draws_in_range 6 random_in)
    (h : vgr_world classify name hex_coordinate random_in = .ok (world, random_out)) :
    (0 ≤ world.size ∧ world.size ≤ 10) ∧
    (0 ≤ world.population ∧ world.population ≤ 10) ∧
    (0 ≤ world.hydrographics ∧ world.hydrographics ≤ 10) ∧
    (0 ≤ world.atmosphere ∧ world.atmosphere ≤ 15) ∧
    (0 ≤ world.government ∧ world.government ≤ 15) ∧
    0 ≤ world.tech_level :=
  have hb := (vgr_world_bounded h hr).1
  ⟨hb.size, hb.population, hb.hydrographics, hb.atmosphere, hb.government, hb.tech_level.1⟩

/-- A stream of dice in `[1, 6]` that reaches the upper ends 10 and 15 of the
size, population and government ranges. -/
theorem vgr_world_attribute_ranges_witness :
    draws_in_range 6 (stream_of [6, 6, 6, 6, 6, 6, 4, 4, 3, 3, 6, 6, 6, 6, 1, 1, 1] 3) ∧
    vgr_world (fun _ => []) "Regina" ⟨1, 10⟩
        (stream_of [6, 6, 6, 6, 6, 6, 4, 4, 3, 3, 6, 6, 6, 6, 1, 1, 1] 3)
      = .ok ({ sf_object_calloc "Regina" ⟨1, 10⟩ with
                starport := 'X', size := 10, atmosphere := 11, hydrographics := 6,
                population := 10, government := 15, law_level := 10, tech_level := 2 },
              fun _ => 3) ∧
    ((0 ≤ (10 : Int) ∧ (10 : Int) ≤ 10) ∧ (0 ≤ (10 : Int) ∧ (10 : Int) ≤ 10) ∧
     (0 ≤ (6 : Int) ∧ (6 : Int) ≤ 10) ∧ (0 ≤ (11 : Int) ∧ (11 : Int) ≤ 15) ∧
     (0 ≤ (15 : Int) ∧ (15 : Int) ≤ 15) ∧ 0 ≤ (2 : Int)) := by
  have hr : draws_in_range 6
      (stream_of [6, 6, 6, 6, 6, 6, 4, 4, 3, 3, 6, 6, 6, 6, 1, 1, 1] 3) :=
    stream_of_in_range _ _ (by decide) (by decide)
  have h : vgr_world (fun _ => []) "Regina" ⟨1, 10⟩
        (stream_of [6, 6, 6, 6, 6, 6, 4, 4, 3, 3, 6, 6, 6, 6, 1, 1, 1] 3)
      = .ok ({ sf_object_calloc "Regina" ⟨1, 10⟩ with
                starport := 'X', size := 10, atmosphere := 11, hydrographics := 6,
                population := 10, government := 15, law_level := 10, tech_level := 2 },
              fun _ => 3) := rfl
  exact ⟨hr, h, vgr_world_attribute_ranges _ _ _ _ _ _ hr h⟩

/-- C7, as stated, fails: on this stream of dice in `[1, 6]` the population is
10, the government `12 - 7 + 10 = 15` and the law level `12 - 7 + 15 = 20`,
which is above 18. -/
theorem vgr_world_law_level_above_18 :
    draws_in_range 6 (stream_of [6, 6, 6, 6, 1, 1, 6, 6, 6, 6, 6, 6, 3] 3) ∧
    ∃ world random_out,
      vgr_world (fun _ => []) "Regina" ⟨1, 10⟩
        (stream_of [6, 6, 6, 6, 1, 1, 6, 6, 6, 6, 6, 6, 3] 3) = .ok (world, random_out) ∧
      world.law_level = 20 ∧ ¬ (0 ≤ world.law_level ∧ world.law_level ≤ 18) :=
  ⟨stream_of_in_range _ _ (by decide) (by decide),
    { sf_object_calloc "Regina" ⟨1, 10⟩ with
        starport := 'X', population := 10, government := 15, law_level := 20,
        tech_level := 6 },
    fun _ => 3, rfl, rfl, by decide⟩

/-- C7, amended: for every stream whose die draws all lie in `[1, 6]`, the law
level of the world `vgr_world` returns lies in 0..20. -/
theorem vgr_world_law_level_range
    (classify : vgr_world_t → List vgr_trade_classification) (name : String)
    (hex_coordinate : vgr_hex_coordinate) (random_in random_out : sf_random_t)
    (world : vgr_world_t)
    (hr : draws_in_range 6 random_in)
    (h : vgr_world classify name hex_coordinate random_in = .ok (world, random_out)) :
    0 ≤ world.law_level ∧ world.law_level ≤ 20 :=
  (vgr_world_bounded h hr).1.law_level

/-- A stream of dice in `[1, 6]` on which the law level is 4. -/
theorem vgr_world_law_level_range_witness :
    draws_in_range 6 (stream_of [3, 3, 3, 3, 3, 3, 3, 3, 1, 1, 2, 6] 3) ∧
    vgr_world (fun _ => []) "Regina" ⟨1, 10⟩
        (stream_of [3, 3, 3, 3, 3, 3, 3, 3, 1, 1, 2, 6] 3)
      = .ok ({ sf_object_calloc "Regina" ⟨1, 10⟩ with
                starport := 'B', gas_giant := true, population := 6, government := 5,
                law_level := 4, tech_level := 11 }, fun _ => 3) ∧
    (0 ≤ (4 : Int) ∧ (4 : Int) ≤ 20) := by
  have hr : draws_in_range 6 (stream_of [3, 3, 3, 3, 3, 3, 3, 3, 1, 1, 2, 6] 3) :=
    stream_of_in_range _ _ (by decide) (by decide)
  have h : vgr_world (fun _ => []) "Regina" ⟨1, 10⟩
        (stream_of [3, 3, 3, 3, 3, 3, 3, 3, 1, 1, 2, 6] 3)
      = .ok ({ sf_object_calloc "Regina" ⟨1, 10⟩ with
                starport := 'B', gas_giant := true, population := 6, government := 5,
                law_level := 4, tech_level := 11 }, fun _ => 3) := rfl
  exact ⟨hr, h, vgr_world_law_level_range _ _ _ _ _ _ hr h⟩

/-- C8, as stated, fails: the starport table holds 'A', not 'X', at index 2, and
'X', not 'C', at index 12. -/
theorem starport_table_not_as_claimed :
    table_at .starport_table starport_table 2 ≠ .ok 'X' ∧
      table_at .starport_table starport_table 12 ≠ .ok 'C' := by
  constructor <;>
  · intro h
    have h := Except.ok.inj h
    revert h
    decide

/-- C8, amended: the fixed starport table maps every index from 2 through 4 to
'A' and maps index 12 to 'X'. -/
theorem starport_table_entries (index : Int) (h2 : 2 ≤ index) (h4 : index ≤ 4) :
    table_at .starport_table starport_table index = .ok 'A' ∧
      table_at .starport_table starport_table 12 = .ok 'X' := by
  refine ⟨?_, rfl⟩
  interval_cases index <;> rfl

/-- The starport table at index 3. -/
theorem starport_table_entries_witness :
    (2 : Int) ≤ 3 ∧ (3 : Int) ≤ 4 ∧
      table_at .starport_table starport_table 3 = .ok 'A' ∧
      table_at .starport_table starport_table 12 = .ok 'X' :=
  ⟨by decide, by decide, starport_table_entries 3 (by decide) (by decide)⟩

/-- C9, failing on the code: for a world without classifications the ladder
chooses the empty full-name join, so the line should carry a blank
classification field; but the join of the empty list returns a buffer that was
never written (the defect of C19), and `string_from` reads it as a string at
its first `strlen`: no line with the ladder's text is produced. -/
theorem string_from_no_classifications (fmt : vgr_hex_coordinate → String)
    (world : vgr_world_t) :
    full_name_join { world with trade_classifications := [] } = "" ∧
    spec_classification_ladder { world with trade_classifications := [] } = "" ∧
    sj_string_alloc_join_strings_with_suffix
      (vgr_strarray_alloc_collect_strings
        ({ world with trade_classifications := [] } : vgr_world_t).trade_classifications
        (·.name)) ". " = none ∧
    string_from fmt { world with trade_classifications := [] }
      = .error .indeterminate_read :=
  ⟨rfl, rfl, rfl, rfl⟩

/-- The three-tier ladder where the join is defined: for every world with at
least one classification and attributes that pass the assertions of
`hex_digit`, the classification field of the line is the text chosen by the
ladder: the full-name join if it is at most 42 long, otherwise the short-name
join if it is at most 42 long, otherwise the abbreviation join.  In particular,
when the full-name join is longer than 42 and the short-name join is not, the
field is the short-name join and not the full-name join. -/
theorem string_from_classification_ladder (fmt : vgr_hex_coordinate → String)
    (world : vgr_world_t) (hd : hex_digits_in_range world)
    (hne : world.trade_classifications ≠ []) :
    string_from fmt world
      = .ok (line_before_classifications fmt world
          ++ left_justify 42 (spec_classification_ladder world) ++ gas_giant_marker world) ∧
    (42 < (full_name_join world).length → (short_name_join world).length ≤ 42 →
      string_from fmt world
        = .ok (line_before_classifications fmt world
            ++ left_justify 42 (short_name_join world) ++ gas_giant_marker world) ∧
      string_from fmt world
        ≠ .ok (line_before_classifications fmt world
            ++ left_justify 42 (full_name_join world) ++ gas_giant_marker world)) := by
  have heq := string_from_eq fmt world hd hne
  refine ⟨heq, fun h1 h2 => ?_⟩
  have hl : spec_classification_ladder world = short_name_join world := by
    unfold spec_classification_ladder
    rw [if_neg (by omega), if_pos h2]
  rw [heq, hl]
  refine ⟨rfl, fun h => ?_⟩
  have hlen := congrArg String.length (Except.ok.inj h)
  simp only [String.length_append, left_justify_length] at hlen
  omega

/-- A world with four classifications: the full names join to 56 characters,
the short names to 24. -/
theorem string_from_classification_ladder_witness :
    string_from (fun _ => "0110") (world_with [agricultural, agricultural, agricultural,
        agricultural])
      = .ok "Regina             0110 A788899-C N Agri. Agri. Agri. Agri.                   G" :=
  ((string_from_classification_ladder (fun _ => "0110")
      (world_with [agricultural, agricultural, agricultural, agricultural])
      ⟨by decide, by decide, by decide, by decide, by decide, by decide, by decide⟩
      (by decide)).2 (by decide) (by decide)).1.trans rfl

/-- C10: for every world (with attributes that pass the assertions of
`hex_digit`) whose full-name join, short-name join and abbreviation join are
all longer than 42 characters, `string_from` returns a line; its classification
field is the whole abbreviation join, neither truncated nor padded, so the line
is longer than the line of any world of the same name and hex coordinate whose
classification text is at most 42 characters long. -/
theorem string_from_abbreviations_overflow (fmt : vgr_hex_coordinate → String)
    (world : vgr_world_t) (hd : hex_digits_in_range world)
    (h1 : 42 < (full_name_join world).length)
    (h2 : 42 < (short_name_join world).length)
    (h3 : 42 < (abbreviation_join world).length) :
    string_from fmt world
      = .ok (line_before_classifications fmt world
          ++ abbreviation_join world ++ gas_giant_marker world) ∧
    ∀ other : vgr_world_t, hex_digits_in_range other → other.trade_classifications ≠ [] →
      other.name = world.name → other.hex_coordinate = world.hex_coordinate →
      (spec_classification_ladder other).length ≤ 42 →
      ∃ line, string_from fmt other = .ok line ∧
        line.length < (line_before_classifications fmt world
          ++ abbreviation_join world ++ gas_giant_marker world).length := by
  have hne : world.trade_classifications ≠ [] := by
    intro hnil
    rw [full_name_join, hnil] at h1
    simp [spec_join_with_suffix] at h1
  have hl : spec_classification_ladder world = abbreviation_join world := by
    unfold spec_classification_ladder
    rw [if_neg (by omega), if_neg (by omega)]
  have heq := string_from_eq fmt world hd hne
  rw [hl, left_justify_of_le 42 _ (by omega)] at heq
  refine ⟨heq, fun other hd' hne' hname hhex hlen => ⟨_, string_from_eq fmt other hd' hne', ?_⟩⟩
  have hm : ∀ w : vgr_world_t, (gas_giant_marker w).length = 1 := fun _ => rfl
  simp only [String.length_append, left_justify_length, line_before_classifications_length,
    hm, hname, hhex]
  omega

set_option maxRecDepth 4096 in
/-- A world with eleven classifications: the abbreviations alone join to 44
characters; the line is 81 characters long, two more than the 79 of a line
whose classification text fits. -/
theorem string_from_abbreviations_overflow_witness :
    string_from (fun _ => "0110") (world_with (List.replicate 11 agricultural))
      = .ok "Regina             0110 A788899-C N Ag. Ag. Ag. Ag. Ag. Ag. Ag. Ag. Ag. Ag. Ag. G" ∧
    ∃ line, string_from (fun _ => "0110") (world_with [agricultural]) = .ok line ∧
      line.length < (line_before_classifications (fun _ => "0110")
          (world_with (List.replicate 11 agricultural))
        ++ abbreviation_join (world_with (List.replicate 11 agricultural))
        ++ gas_giant_marker (world_with (List.replicate 11 agricultural))).length := by
  have h := string_from_abbreviations_overflow (fun _ => "0110")
    (world_with (List.replicate 11 agricultural))
    ⟨by decide, by decide, by decide, by decide, by decide, by decide, by decide⟩
    (by decide) (by decide) (by decide)
  exact ⟨h.1.trans rfl,
    h.2 (world_with [agricultural])
      ⟨by decide, by decide, by decide, by decide, by decide, by decide, by decide⟩
      (by decide) rfl rfl (by decide)⟩

/-- C11: for every value from 0 to 34, `hex_digit` returns the character the
radix-35 digit list has for it; for 0..9 that is the decimal digit character of
the value and for 10..34 the uppercase letter at offset `value - 10` from 'A'.
In particular 0 gives '0', 9 gives '9', 10 gives 'A' and 34 gives 'Y', and
`hex_digit` is injective on 0..34. -/
theorem hex_digit_values (value : Int) (h0 : 0 ≤ value) (h34 : value ≤ 34) :
    spec_hex_digits.get? value.toNat = some (hex_digit_char value) ∧
    hex_digit value = .ok (hex_digit_char value) ∧
    (value ≤ 9 → hex_digit value = .ok (Nat.digitChar value.toNat)) ∧
    (10 ≤ value → hex_digit value = .ok (Char.ofNat ('A'.toNat + (value - 10).toNat))) ∧
    hex_digit 0 = .ok '0' ∧ hex_digit 9 = .ok '9' ∧ hex_digit 10 = .ok 'A' ∧
    hex_digit 34 = .ok 'Y' ∧
    ∀ other : Int, 0 ≤ other → other ≤ 34 → hex_digit other = hex_digit value →
      other = value := by
  refine ⟨?_, hex_digit_of_in_range ⟨h0, h34⟩, ?_, ?_, rfl, rfl, rfl, rfl, ?_⟩
  · interval_cases value <;> rfl
  · intro h9
    rw [hex_digit_of_in_range ⟨h0, h34⟩]
    interval_cases value <;> rfl
  · intro h10
    rw [hex_digit_of_in_range ⟨h0, h34⟩]
    interval_cases value <;> rfl
  · intro other g0 g34 h
    rw [hex_digit_of_in_range ⟨h0, h34⟩, hex_digit_of_in_range ⟨g0, g34⟩] at h
    have h : ((hex_digit_char other).toNat : Int) = ((hex_digit_char value).toNat : Int) := by
      rw [Except.ok.inj h]
    rw [hex_digit_char_toNat g0 g34, hex_digit_char_toNat h0 h34] at h
    split at h <;> split at h <;> omega

/-- The digit of the value 21 is 'L'. -/
theorem hex_digit_values_witness :
    (0 : Int) ≤ 21 ∧ (21 : Int) ≤ 34 ∧ hex_digit 21 = .ok 'L' :=
  ⟨by decide, by decide, (hex_digit_values 21 (by decide) (by decide)).2.1.trans rfl⟩

/-- C12: for every world, `base_code` returns 'A' if naval base and scout base
are both true, 'N' if only naval base is true, 'S' if only scout base is true,
and a space if neither is true. -/
theorem base_code_eq (world : vgr_world_t) :
    base_code world = spec_base_code world.naval_base world.scout_base ∧
    base_code { world with naval_base := true, scout_base := true } = 'A' ∧
    base_code { world with naval_base := true, scout_base := false } = 'N' ∧
    base_code { world with naval_base := false, scout_base := true } = 'S' ∧
    base_code { world with naval_base := false, scout_base := false } = ' ' := by
  refine ⟨?_, rfl, rfl, rfl, rfl⟩
  unfold base_code spec_base_code
  cases world.naval_base <;> cases world.scout_base <;> rfl

/-- C13: for every stream whose die draws all lie in `[1, 6]`, each of the seven
attributes that `string_from` passes to `hex_digit` for the world `vgr_world`
returns lies in 0..34, so each of the seven calls of `hex_digit` passes both
assertions and returns a digit. -/
theorem vgr_world_hex_digits
    (classify : vgr_world_t → List vgr_trade_classification) (name : String)
    (hex_coordinate : vgr_hex_coordinate) (random_in random_out : sf_random_t)
    (world : vgr_world_t)
    (hr : draws_in_range 6 random_in)
    (h : vgr_world classify name hex_coordinate random_in = .ok (world, random_out)) :
    hex_digits_in_range world ∧
    hex_digit world.size = .ok (hex_digit_char world.size) ∧
    hex_digit world.atmosphere = .ok (hex_digit_char world.atmosphere) ∧
    hex_digit world.hydrographics = .ok (hex_digit_char world.hydrographics) ∧
    hex_digit world.population = .ok (hex_digit_char world.population) ∧
    hex_digit world.government = .ok (hex_digit_char world.government) ∧
    hex_digit world.law_level = .ok (hex_digit_char world.law_level) ∧
    hex_digit world.tech_level = .ok (hex_digit_char world.tech_level) :=
  have hd := attributes_bounded_hex_digits (vgr_world_bounded h hr).1
  ⟨hd, hex_digit_of_in_range hd.size, hex_digit_of_in_range hd.atmosphere,
    hex_digit_of_in_range hd.hydrographics, hex_digit_of_in_range hd.population,
    hex_digit_of_in_range hd.government, hex_digit_of_in_range hd.law_level,
    hex_digit_of_in_range hd.tech_level⟩

/-- A stream of dice in `[1, 6]` whose world has the digits A, B, 6, A, F, A
and 2. -/
theorem vgr_world_hex_digits_witness :
    draws_in_range 6 (stream_of [6, 6, 6, 6, 6, 6, 4, 4, 3, 3, 6, 6, 6, 6, 1, 1, 1] 3) ∧
    vgr_world (fun _ => []) "Regina" ⟨1, 10⟩
        (stream_of [6, 6, 6, 6, 6, 6, 4, 4, 3, 3, 6, 6, 6, 6, 1, 1, 1] 3)
      = .ok ({ sf_object_calloc "Regina" ⟨1, 10⟩ with
                starport := 'X', size := 10, atmosphere := 11, hydrographics := 6,
                population := 10, government := 15, law_level := 10, tech_level := 2 },
              fun _ => 3) ∧
    hex_digit 10 = .ok 'A' ∧ hex_digit 11 = .ok 'B' ∧ hex_digit 6 = .ok '6' ∧
    hex_digit 15 = .ok 'F' ∧ hex_digit 2 = .ok '2' := by
  have hr : draws_in_range 6
      (stream_of [6, 6, 6, 6, 6, 6, 4, 4, 3, 3, 6, 6, 6, 6, 1, 1, 1] 3) :=
    stream_of_in_range _ _ (by decide) (by decide)
  have h : vgr_world (fun _ => []) "Regina" ⟨1, 10⟩
        (stream_of [6, 6, 6, 6, 6, 6, 4, 4, 3, 3, 6, 6, 6, 6, 1, 1, 1] 3)
      = .ok ({ sf_object_calloc "Regina" ⟨1, 10⟩ with
                starport := 'X', size := 10, atmosphere := 11, hydrographics := 6,
                population := 10, government := 15, law_level := 10, tech_level := 2 },
              fun _ => 3) := rfl
  have hd := vgr_world_hex_digits _ _ _ _ _ _ hr h
  exact ⟨hr, h, hd.2.1.trans rfl, hd.2.2.1.trans rfl, hd.2.2.2.1.trans rfl,
    hd.2.2.2.2.2.1.trans rfl, hd.2.2.2.2.2.2.2.trans rfl⟩

/-- C15: for every world `vgr_world` returns with non-zero size, hydrographics
is the natural two-dice total of the hydrographics throw (made from the stream
the atmosphere stage left) plus `atmosphere - 7`, minus a further 4 exactly when
atmosphere is 0, 1 or at least 10, clamped into `[0, 10]`. -/
theorem vgr_world_hydrographics
    (classify : vgr_world_t → List vgr_trade_classification) (name : String)
    (hex_coordinate : vgr_hex_coordinate) (random_in random_out : sf_random_t)
    (world : vgr_world_t)
    (h : vgr_world classify name hex_coordinate random_in = .ok (world, random_out))
    (hs : world.size ≠ 0) :
    ∃ st, vgr_world_to_size name hex_coordinate random_in = .ok st ∧
      world.hydrographics
        = spec_clamp 0 10
            (natural_two_dice (throw_atmosphere st.1 st.2).2 + (world.atmosphere - 7)
              - (if world.atmosphere = 0 ∨ world.atmosphere = 1 ∨ 10 ≤ world.atmosphere
                  then 4 else 0)) := by
  obtain ⟨st8, st11, h8, h11, rfl, rfl⟩ := vgr_world_ok h
  obtain ⟨st5, h5, rfl⟩ := vgr_world_to_population_ok h8
  have f11 := fields_after_tech_level h11
  have f8 := fields_after_population st5.1 st5.2
  simp only at f11 f8
  refine ⟨st5, h5, ?_⟩
  change st11.1.size ≠ 0 at hs
  change st11.1.hydrographics = spec_clamp 0 10
    (_ + (st11.1.atmosphere - 7)
      - (if st11.1.atmosphere = 0 ∨ st11.1.atmosphere = 1 ∨ 10 ≤ st11.1.atmosphere
          then 4 else 0))
  rw [f11.2.2.2.2.1, f8.2.2.2.2.1] at hs
  rw [f11.2.2.2.2.2.2.1, f11.2.2.2.2.2.1, f8.2.2.2.2.2.2.2, f8.2.2.2.2.2.2.1]
  exact throw_hydrographics_value _ _ (by rw [f8.2.2.2.2.2.1]; exact hs)

/-- A stream on which the hydrographics throw is `4 + 4`, atmosphere is 11 and
hydrographics `8 + 11 - 7 - 4 = 8`. -/
theorem vgr_world_hydrographics_witness :
    vgr_world (fun _ => []) "Regina" ⟨1, 10⟩
        (stream_of [6, 6, 6, 6, 6, 6, 4, 4, 4, 4, 6, 6, 6, 6, 1, 1, 1] 3)
      = .ok ({ sf_object_calloc "Regina" ⟨1, 10⟩ with
                starport := 'X', size := 10, atmosphere := 11, hydrographics := 8,
                population := 10, government := 15, law_level := 10, tech_level := 2 },
              fun _ => 3) ∧
    ∃ st, vgr_world_to_size "Regina" ⟨1, 10⟩
        (stream_of [6, 6, 6, 6, 6, 6, 4, 4, 4, 4, 6, 6, 6, 6, 1, 1, 1] 3) = .ok st ∧
      (8 : Int) = spec_clamp 0 10
        (natural_two_dice (throw_atmosphere st.1 st.2).2 + ((11 : Int) - 7)
          - (if (11 : Int) = 0 ∨ (11 : Int) = 1 ∨ (10 : Int) ≤ 11 then 4 else 0)) := by
  have h : vgr_world (fun _ => []) "Regina" ⟨1, 10⟩
        (stream_of [6, 6, 6, 6, 6, 6, 4, 4, 4, 4, 6, 6, 6, 6, 1, 1, 1] 3)
      = .ok ({ sf_object_calloc "Regina" ⟨1, 10⟩ with
                starport := 'X', size := 10, atmosphere := 11, hydrographics := 8,
                population := 10, government := 15, law_level := 10, tech_level := 2 },
              fun _ => 3) := rfl
  exact ⟨h, vgr_world_hydrographics _ _ _ _ _ _ h (by decide)⟩

/-- C16: for every world `vgr_world` returns: when size is non-zero, atmosphere
is `max(0, r - 7 + size)`; when population is non-zero, government is
`max(0, r - 7 + population)` and law level is `max(0, r - 7 + government)`;
`r` being each time the natural two-dice total of that stage's own throw, made
from the stream the stage before it left. -/
theorem vgr_world_atmosphere_government_law_level
    (classify : vgr_world_t → List vgr_trade_classification) (name : String)
    (hex_coordinate : vgr_hex_coordinate) (random_in random_out : sf_random_t)
    (world : vgr_world_t)
    (h : vgr_world classify name hex_coordinate random_in = .ok (world, random_out)) :
    ∃ st5 st8, vgr_world_to_size name hex_coordinate random_in = .ok st5 ∧
      vgr_world_to_population name hex_coordinate random_in = .ok st8 ∧
      (world.size ≠ 0 →
        world.atmosphere = max 0 (natural_two_dice st5.2 - 7 + world.size)) ∧
      (world.population ≠ 0 →
        world.government = max 0 (natural_two_dice st8.2 - 7 + world.population) ∧
        world.law_level
          = max 0 (natural_two_dice (throw_government st8.1 st8.2).2 - 7
              + world.government)) := by
  obtain ⟨st8, st11, h8, h11, rfl, rfl⟩ := vgr_world_ok h
  have f11 := fields_after_tech_level h11
  simp only at f11
  obtain ⟨st5, h5, hst8⟩ := vgr_world_to_population_ok h8
  have f8 := fields_after_population st5.1 st5.2
  simp only at f8
  rw [← hst8] at f8
  refine ⟨st5, st8, h5, h8, ?_, ?_⟩
  · intro hs
    change st11.1.size ≠ 0 at hs
    change st11.1.atmosphere = max 0 (_ - 7 + st11.1.size)
    rw [f11.2.2.2.2.1, f8.2.2.2.2.1] at hs
    rw [f11.2.2.2.2.2.1, f11.2.2.2.2.1, f8.2.2.2.2.2.2.1, f8.2.2.2.2.1]
    exact throw_atmosphere_value _ _ hs
  · intro hp
    change st11.1.population ≠ 0 at hp
    change st11.1.government = max 0 (_ - 7 + st11.1.population) ∧
      st11.1.law_level = max 0 (_ - 7 + st11.1.government)
    rw [f11.2.2.2.2.2.2.2.1] at hp
    rw [f11.2.2.2.2.2.2.2.2.2.2.1, f11.2.2.2.2.2.2.2.1, f11.2.2.2.2.2.2.2.2.2.2.2.2.1]
    refine ⟨throw_government_value _ _ hp, ?_⟩
    exact throw_law_level_value _ _ (by rw [f11.2.2.2.2.2.2.2.2.1]; exact hp)

/-- A stream on which size is 4 and the atmosphere throw `3 + 3`, population is
4, the government throw `3 + 3` and the law level throw `3 + 3`. -/
theorem vgr_world_atmosphere_government_law_level_witness :
    vgr_world (fun _ => []) "Regina" ⟨1, 10⟩ (fun _ => 3)
      = .ok ({ sf_object_calloc "Regina" ⟨1, 10⟩ with
                starport := 'B', gas_giant := true, size := 4, atmosphere := 3,
                hydrographics := 2, population := 4, government := 3, law_level := 2,
                tech_level := 10 }, fun _ => 3) ∧
    ∃ st5 st8, vgr_world_to_size "Regina" ⟨1, 10⟩ (fun _ => 3) = .ok st5 ∧
      vgr_world_to_population "Regina" ⟨1, 10⟩ (fun _ => 3) = .ok st8 ∧
      ((4 : Int) ≠ 0 → (3 : Int) = max 0 (natural_two_dice st5.2 - 7 + 4)) ∧
      ((4 : Int) ≠ 0 →
        (3 : Int) = max 0 (natural_two_dice st8.2 - 7 + 4) ∧
        (2 : Int) = max 0 (natural_two_dice (throw_government st8.1 st8.2).2 - 7 + 3)) := by
  have h : vgr_world (fun _ => []) "Regina" ⟨1, 10⟩ (fun _ => 3)
      = .ok ({ sf_object_calloc "Regina" ⟨1, 10⟩ with
                starport := 'B', gas_giant := true, size := 4, atmosphere := 3,
                hydrographics := 2, population := 4, government := 3, law_level := 2,
                tech_level := 10 }, fun _ => 3) := rfl
  exact ⟨h, vgr_world_atmosphere_government_law_level _ _ _ _ _ _ h⟩

/-- C14: for every world `vgr_world` returns with non-zero population, the tech
level is `max(0, d + T_size[size] + T_atm[atmosphere] + T_hyd[hydrographics]
+ T_pop[population] + T_gov[government] + b)`: `d` is the die of the tech level
throw (made from the stream the law level stage left), the `T` are the five
tech level tables, which hold an entry for each of these attributes, and `b` is
the starport bonus +6 for 'A', +4 for 'B', +2 for 'C', -4 for 'X' and 0 for any
other starport. -/
theorem vgr_world_tech_level
    (classify : vgr_world_t → List vgr_trade_classification) (name : String)
    (hex_coordinate : vgr_hex_coordinate) (random_in random_out : sf_random_t)
    (world : vgr_world_t)
    (h : vgr_world classify name hex_coordinate random_in = .ok (world, random_out))
    (hp : world.population ≠ 0) :
    ∃ st t_size t_atmosphere t_hydrographics t_population t_government,
      vgr_world_to_population name hex_coordinate random_in = .ok st ∧
      table_at .tech_level_size_table tech_level_size_table world.size = .ok t_size ∧
      table_at .tech_level_atmosphere_table tech_level_atmosphere_table world.atmosphere
        = .ok t_atmosphere ∧
      table_at .tech_level_hydrographics_table tech_level_hydrographics_table
        world.hydrographics = .ok t_hydrographics ∧
      table_at .tech_level_population_table tech_level_population_table world.population
        = .ok t_population ∧
      table_at .tech_level_government_table tech_level_government_table world.government
        = .ok t_government ∧
      world.tech_level
        = max 0 (natural_one_die
              (throw_law_level (throw_government st.1 st.2).1
                (throw_government st.1 st.2).2).2
            + t_size + t_atmosphere + t_hydrographics + t_population + t_government
            + spec_starport_bonus world.starport) := by
  obtain ⟨st8, st11, h8, h11, rfl, rfl⟩ := vgr_world_ok h
  have f11 := fields_after_tech_level h11
  simp only at f11
  obtain ⟨fport, -, -, -, fsize, fatm, fhyd, fpop, -, lpop, fgov, lgov, -, lport, lsize, latm,
    lhyd⟩ := f11
  change st11.1.population ≠ 0 at hp
  rcases throw_tech_level_ok h11 with ⟨-, m, hm, hst⟩ | ⟨hp0, -⟩
  · obtain ⟨ts, ta, ty, tp, tg, hs, ha, hy, hpp, hg, rfl⟩ := tech_level_modifiers_ok hm
    rw [lsize, ← fsize] at hs
    rw [latm, ← fatm] at ha
    rw [lhyd, ← fhyd] at hy
    rw [lpop, ← fpop] at hpp
    rw [lgov, ← fgov] at hg
    refine ⟨st8, ts, ta, ty, tp, tg, h8, hs, ha, hy, hpp, hg, ?_⟩
    change st11.1.tech_level = max 0 (_ + spec_starport_bonus st11.1.starport)
    rw [fport, ← lport, ← tech_level_starport_modifiers_eq, hst, natural_one_die_eq]
    simp only [List.sum_cons]
    split <;> omega
  · rw [lpop, ← fpop] at hp0
    exact absurd hp0 hp

/-- A stream on which the tech level throw is 3, the starport 'B' and the tech
level `3 + 1 + 1 + 0 + 1 + 0 + 4 = 10`. -/
theorem vgr_world_tech_level_witness :
    vgr_world (fun _ => []) "Regina" ⟨1, 10⟩ (fun _ => 3)
      = .ok ({ sf_object_calloc "Regina" ⟨1, 10⟩ with
                starport := 'B', gas_giant := true, size := 4, atmosphere := 3,
                hydrographics := 2, population := 4, government := 3, law_level := 2,
                tech_level := 10 }, fun _ => 3) ∧
    ∃ st : vgr_world_t × sf_random_t,
      ∃ t_size t_atmosphere t_hydrographics t_population t_government : Int,
      table_at .tech_level_size_table tech_level_size_table 4 = .ok t_size ∧
      table_at .tech_level_atmosphere_table tech_level_atmosphere_table 3
        = .ok t_atmosphere ∧
      table_at .tech_level_hydrographics_table tech_level_hydrographics_table 2
        = .ok t_hydrographics ∧
      table_at .tech_level_population_table tech_level_population_table 4
        = .ok t_population ∧
      table_at .tech_level_government_table tech_level_government_table 3
        = .ok t_government ∧
      (10 : Int) = max 0 (natural_one_die
              (throw_law_level (throw_government st.1 st.2).1
                (throw_government st.1 st.2).2).2
            + t_size + t_atmosphere + t_hydrographics + t_population + t_government
            + spec_starport_bonus 'B') := by
  have h : vgr_world (fun _ => []) "Regina" ⟨1, 10⟩ (fun _ => 3)
      = .ok ({ sf_object_calloc "Regina" ⟨1, 10⟩ with
                starport := 'B', gas_giant := true, size := 4, atmosphere := 3,
                hydrographics := 2, population := 4, government := 3, law_level := 2,
                tech_level := 10 }, fun _ => 3) := rfl
  obtain ⟨st, ts, ta, ty, tp, tg, -, hs, ha, hy, hpp, hg, ht⟩ :=
    vgr_world_tech_level _ _ _ _ _ _ h (by decide)
  exact ⟨h, st, ts, ta, ty, tp, tg, hs, ha, hy, hpp, hg, ht⟩

/-- C17: for every world `vgr_world` returns whose starport is not 'E' or 'X',
the scout base flag is the entry of the scout base table at index `r + m`: `r`
is the natural two-dice total of the scout base throw (made from the stream the
naval base stage left) and `m` is -1 for starport 'C', -2 for 'B', -3 for 'A'
and 0 otherwise; that index is within the table and scout base is true exactly
when `r + m ≥ 7`. -/
theorem vgr_world_scout_base
    (classify : vgr_world_t → List vgr_trade_classification) (name : String)
    (hex_coordinate : vgr_hex_coordinate) (random_in random_out : sf_random_t)
    (world : vgr_world_t)
    (h : vgr_world classify name hex_coordinate random_in = .ok (world, random_out))
    (hport : world.starport ≠ 'E' ∧ world.starport ≠ 'X') :
    ∃ st1 st2, vgr_world_to_starport name hex_coordinate random_in = .ok st1 ∧
      throw_naval_base st1.1 st1.2 = .ok st2 ∧
      table_at .scout_base_table scout_base_table
        (natural_two_dice st2.2 + spec_scout_base_modifier world.starport)
        = .ok world.scout_base ∧
      (world.scout_base = true ↔
        7 ≤ natural_two_dice st2.2 + spec_scout_base_modifier world.starport) := by
  obtain ⟨st8, st11, h8, h11, rfl, rfl⟩ := vgr_world_ok h
  have f11 := fields_after_tech_level h11
  simp only at f11
  obtain ⟨st5, h5, hst8⟩ := vgr_world_to_population_ok h8
  have f8 := fields_after_population st5.1 st5.2
  simp only at f8
  rw [← hst8] at f8
  obtain ⟨st1, st2, st3, st4, h1, h2, h3, h4, rfl⟩ := vgr_world_to_size_ok h5
  have f5 := flags_after_size h4
  have hport11 : st11.1.starport = st3.1.starport := by rw [f11.1, f8.1, f5.1]
  have hscout11 : st11.1.scout_base = st3.1.scout_base := by
    rw [f11.2.2.1, f8.2.2.1, f5.2.2]
  change st11.1.starport ≠ 'E' ∧ st11.1.starport ≠ 'X' at hport
  rw [hport11] at hport
  rcases throw_scout_base_ok h3 with ⟨-, v, hv, hst3⟩ | ⟨hex, -⟩
  · have hv3 : st3.1.scout_base = v := by rw [hst3]
    have hp3 : st3.1.starport = st2.1.starport := by rw [hst3]
    rw [scout_base_modifiers_eq, ← natural_two_dice_eq, ← hp3, ← hv3] at hv
    refine ⟨st1, st2, h1, h2, ?_, ?_⟩
    · show table_at .scout_base_table scout_base_table
        (natural_two_dice st2.2 + spec_scout_base_modifier st11.1.starport)
        = .ok st11.1.scout_base
      rw [hport11, hscout11]
      exact hv
    · show st11.1.scout_base = true ↔
        7 ≤ natural_two_dice st2.2 + spec_scout_base_modifier st11.1.starport
      rw [hport11, hscout11]
      exact scout_base_table_true_iff hv
  · obtain ⟨v3, hv3⟩ := throw_scout_base_world h3
    have hp3 : st3.1.starport = st2.1.starport := by rw [hv3]
    rw [hp3] at hport
    exact absurd ⟨Ne.symm hport.1, Ne.symm hport.2⟩ hex

/-- A stream on which the starport is 'B' and the scout base throw `3 + 3`:
index `6 - 2 = 4`, no scout base. -/
theorem vgr_world_scout_base_witness :
    vgr_world (fun _ => []) "Regina" ⟨1, 10⟩ (fun _ => 3)
      = .ok ({ sf_object_calloc "Regina" ⟨1, 10⟩ with
                starport := 'B', gas_giant := true, size := 4, atmosphere := 3,
                hydrographics := 2, population := 4, government := 3, law_level := 2,
                tech_level := 10 }, fun _ => 3) ∧
    ∃ st1 st2, vgr_world_to_starport "Regina" ⟨1, 10⟩ (fun _ => 3) = .ok st1 ∧
      throw_naval_base st1.1 st1.2 = .ok st2 ∧
      table_at .scout_base_table scout_base_table
        (natural_two_dice st2.2 + spec_scout_base_modifier 'B') = .ok false ∧
      (false = true ↔ 7 ≤ natural_two_dice st2.2 + spec_scout_base_modifier 'B') := by
  have h : vgr_world (fun _ => []) "Regina" ⟨1, 10⟩ (fun _ => 3)
      = .ok ({ sf_object_calloc "Regina" ⟨1, 10⟩ with
                starport := 'B', gas_giant := true, size := 4, atmosphere := 3,
                hydrographics := 2, population := 4, government := 3, law_level := 2,
                tech_level := 10 }, fun _ => 3) := rfl
  exact ⟨h, vgr_world_scout_base _ _ _ _ _ _ h (by decide)⟩

/-- C18, as stated, fails: the line of this world is not the concatenation the
claim lists; the format of `string_from` also puts a blank after the name, after
the tech level digit and after the base code, so the line is three characters
longer. -/
theorem string_from_line_not_as_claimed :
    string_from (fun _ => "0110") (world_with [agricultural])
      = .ok "Regina             0110 A788899-C N Agricultural.                             G" ∧
    spec_line "Regina" "0110" 'A' (attribute_digits (world_with [agricultural]))
        (hex_digit_char 12) 'N' "Agricultural. " true
      = "Regina            0110 A788899-CNAgricultural.                             G" ∧
    string_from (fun _ => "0110") (world_with [agricultural])
      ≠ .ok (spec_line "Regina" "0110" 'A' (attribute_digits (world_with [agricultural]))
          (hex_digit_char 12) 'N' "Agricultural. " true) := by
  refine ⟨rfl, rfl, fun h => ?_⟩
  have h := congrArg String.length (Except.ok.inj h)
  revert h
  decide

/-- C18, amended: for every world on which `string_from` is defined (at least one
classification, attributes that pass the assertions of `hex_digit`) and whose
hex code has at least 4 characters, the line consists of exactly these parts in
this order: the name left-justified and padded to 18 characters, a blank, the
hex code, a blank, the starport letter, the six attribute digits (size,
atmosphere, hydrographics, population, government, law level) with nothing
between them, a hyphen, the tech level digit, a blank, the base code, a blank,
the classification text left-justified and padded to 42 characters, and the gas
giant marker, 'G' when the world has a gas giant and a blank otherwise. -/
theorem string_from_line (fmt : vgr_hex_coordinate → String) (world : vgr_world_t)
    (hd : hex_digits_in_range world) (hne : world.trade_classifications ≠ [])
    (hhex : 4 ≤ (fmt world.hex_coordinate).length) :
    string_from fmt world
      = .ok (left_justify 18 world.name ++ " " ++ fmt world.hex_coordinate ++ " "
          ++ String.mk [world.starport]
          ++ String.mk [hex_digit_char world.size, hex_digit_char world.atmosphere,
              hex_digit_char world.hydrographics, hex_digit_char world.population,
              hex_digit_char world.government, hex_digit_char world.law_level]
          ++ "-" ++ String.mk [hex_digit_char world.tech_level] ++ " "
          ++ String.mk [base_code world] ++ " "
          ++ left_justify 42 (spec_classification_ladder world)
          ++ String.mk [if world.gas_giant then 'G' else ' ']) := by
  rw [string_from_eq fmt world hd hne, format_line_eq fmt world _ hhex]
  rfl

/-- The line of a world with one classification. -/
theorem string_from_line_witness :
    string_from (fun _ => "0110") (world_with [agricultural])
      = .ok "Regina             0110 A788899-C N Agricultural.                             G" :=
  (string_from_line (fun _ => "0110") (world_with [agricultural])
    ⟨by decide, by decide, by decide, by decide, by decide, by decide, by decide⟩
    (by decide) (by decide)).trans rfl

/-- C19, failing on the code: for the empty list (`count` is 0) one byte is
asked of `sj_malloc` and neither loop body runs, so nothing is ever written to
the buffer that is returned: it holds no terminated string, and reading it as
one reads storage that was never written. -/
theorem sj_string_alloc_join_strings_with_suffix_empty (suffix : String) :
    joined_size [] suffix = 1 ∧
    sj_string_alloc_join_strings_with_suffix [] suffix = none ∧
    c_string (sj_string_alloc_join_strings_with_suffix [] suffix)
      = .error .indeterminate_read :=
  ⟨rfl, rfl, rfl⟩

/-- C20: for every input stream on which `vgr_world` returns a world, the stream
stored in `random_out` is the input stream without its first
`8 + 2*[starport is 'A' or 'B'] + 2*[starport is not 'E' or 'X']
 + 4*[size is non-zero] + 5*[population is non-zero]` draws; that number is at
least 8 and at most 21; on every stream with the same first draws, that many,
`vgr_world` returns the same world and that stream without them; so the world
depends only on the first 21 draws. -/
theorem vgr_world_draws_consumed
    (classify : vgr_world_t → List vgr_trade_classification) (name : String)
    (hex_coordinate : vgr_hex_coordinate) (random_in random_out : sf_random_t)
    (world : vgr_world_t)
    (h : vgr_world classify name hex_coordinate random_in = .ok (world, random_out)) :
    (random_out = fun n => random_in (n + draws_consumed world)) ∧
    8 ≤ draws_consumed world ∧ draws_consumed world ≤ 21 ∧
    (∀ other, same_draws (draws_consumed world) random_in other →
      vgr_world classify name hex_coordinate other
        = .ok (world, fun n => other (n + draws_consumed world))) ∧
    (∀ other, same_draws 21 random_in other →
      ∃ rest, vgr_world classify name hex_coordinate other = .ok (world, rest)) := by
  obtain ⟨hout, hc⟩ := vgr_world_consumes h
  have h21 : draws_consumed world ≤ 21 := by
    unfold draws_consumed
    split_ifs <;> omega
  have h8 : 8 ≤ draws_consumed world := by
    unfold draws_consumed
    omega
  exact ⟨hout, h8, h21, hc,
    fun other ho => ⟨_, hc other (same_draws_of_le h21 ho)⟩⟩

/-- On the stream of threes all 21 draws are used; a stream that differs from
it only after them gives the same world. -/
theorem vgr_world_draws_consumed_witness :
    vgr_world (fun _ => []) "Regina" ⟨1, 10⟩ (fun _ => 3)
      = .ok ({ sf_object_calloc "Regina" ⟨1, 10⟩ with
                starport := 'B', gas_giant := true, size := 4, atmosphere := 3,
                hydrographics := 2, population := 4, government := 3, law_level := 2,
                tech_level := 10 }, fun _ => 3) ∧
    draws_consumed { sf_object_calloc "Regina" ⟨1, 10⟩ with
                starport := 'B', gas_giant := true, size := 4, atmosphere := 3,
                hydrographics := 2, population := 4, government := 3, law_level := 2,
                tech_level := 10 } = 21 ∧
    ∃ rest, vgr_world (fun _ => []) "Regina" ⟨1, 10⟩ (fun n => if n < 21 then 3 else 5)
      = .ok ({ sf_object_calloc "Regina" ⟨1, 10⟩ with
                starport := 'B', gas_giant := true, size := 4, atmosphere := 3,
                hydrographics := 2, population := 4, government := 3, law_level := 2,
                tech_level := 10 }, rest) := by
  have h : vgr_world (fun _ => []) "Regina" ⟨1, 10⟩ (fun _ => 3)
      = .ok ({ sf_object_calloc "Regina" ⟨1, 10⟩ with
                starport := 'B', gas_giant := true, size := 4, atmosphere := 3,
                hydrographics := 2, population := 4, government := 3, law_level := 2,
                tech_level := 10 }, fun _ => 3) := rfl
  refine ⟨h, by decide, ?_⟩
  apply (vgr_world_draws_consumed _ _ _ _ _ _ h).2.2.2.2
  intro i hi
  show (if i < 21 then (3 : Int) else 5) = 3
  rw [if_pos hi]

end Voyager
